import Mathlib

/-!
# Verification of the Kotlin/Native runtime lifecycle (Runtime.cpp)

Shallow embedding of `src/runtime/src/main/cpp/Runtime.cpp`:
the initializer registry (`InitNode`, `AppendToInitializersTail`,
`InitOrDeinitGlobalVariables`), the global/per-thread status machines and
the public lifecycle entry points (`Kotlin_initRuntimeIfNeeded`,
`Kotlin_deinitRuntimeIfNeeded`, `Kotlin_destroyRuntime`,
`Kotlin_zeroOutTLSGlobals`).

Modelling conventions:
- Pointers are `Nat` addresses, `Option Nat` when the pointer may be null
  (`none` = `nullptr`).
- External collaborators that do not touch the state modelled here
  (`SetKonanTerminateHandler`, `konan::consoleInit`, `WorkerInit`,
  `WorkerDeinit`, `RestoreMemory`, `DeinitMemory`, `PerformFullGC`,
  `ShutdownCleaners`, `WaitNativeWorkersTermination`) are no-ops or
  constants; they live outside `src/`.
- Modelled from the spec: `RuntimeCheck` and `RuntimeAssert` (KAssert.h is
  not under `src/`); spec §7 states every violated precondition "reports a
  diagnostic and aborts immediately", so both are modelled as aborting
  outcomes when their condition fails.
- Each callback invocation performed by `InitOrDeinitGlobalVariables` is
  recorded in an explicit trace; each whole phase run is one `PhaseRun`
  event emitted by the lifecycle operations.
-/

namespace KotlinRuntime

/-! ## Initializer registry (Runtime.cpp lines 28-37, 58-64, 137-145) -/

/-- `InitNode` (Runtime.cpp 29-32): an initializer callback (modelled as an
opaque `Nat` id for the function pointer) plus a `next` pointer. -/
structure InitNode where
  callbackId : Nat
  next : Option Nat
deriving DecidableEq, Repr

/-- The process-wide registry state: the store of `InitNode`s (address to
node contents) together with the two globals `initHeadNode` and
`initTailNode` (Runtime.cpp 36-37). -/
structure Registry where
  nodes : List (Nat × InitNode)
  initHeadNode : Option Nat
  initTailNode : Option Nat
deriving DecidableEq, Repr

def Registry.empty : Registry := ⟨[], none, none⟩

/-- Look up an address in a node store (first match, as pointer identity
makes duplicates impossible in C). -/
def lookupNode : List (Nat × InitNode) → Nat → Option InitNode
  | [], _ => none
  | p :: rest, a => if p.1 = a then some p.2 else lookupNode rest a

/-- Dereference a node pointer in the store. -/
def Registry.get (r : Registry) (a : Nat) : Option InitNode :=
  lookupNode r.nodes a

/-- Write the `next` field of the node at address `a` (`initTailNode->next = next`). -/
def Registry.setNext (r : Registry) (a : Nat) (nx : Option Nat) : Registry :=
  { r with nodes := r.nodes.map fun p => if p.1 = a then (p.1, ⟨p.2.callbackId, nx⟩) else p }

/-- `AppendToInitializersTail` (Runtime.cpp 137-145): link the node at
address `next` at the tail of the list.  The `some _, none` case is a null
dereference in the C code (`initTailNode->next`), unreachable from any
registry built by appends; it is modelled as leaving the store unchanged. -/
def AppendToInitializersTail (r : Registry) (next : Nat) : Registry :=
  match r.initHeadNode, r.initTailNode with
  | none, _ => { r with initHeadNode := some next, initTailNode := some next }
  | some _, some tailA => { r.setNext tailA next with initTailNode := some next }
  | some _, none => { r with initTailNode := some next }

/-- One callback invocation `currentNode->init(initialize, memory)`
(Runtime.cpp 61): the callback id, the phase tag passed as `initialize`,
and the `MemoryState*` handle. -/
structure CallbackCall where
  callbackId : Nat
  phase : Nat
  memory : Option Nat
deriving DecidableEq, Repr

/-- The traversal loop of `InitOrDeinitGlobalVariables` (Runtime.cpp 59-63),
with explicit fuel: the C `while` loop terminates only on acyclic chains,
which is proved for registries built by appends.  A dangling pointer stops
the traversal (in C it would be undefined behaviour). -/
def traverseFrom (r : Registry) (fuel : Nat) (cur : Option Nat) (phase : Nat)
    (memory : Option Nat) : List CallbackCall :=
  match fuel, cur with
  | 0, _ => []
  | _, none => []
  | fuel' + 1, some a =>
    match r.get a with
    | none => []
    | some nd => ⟨nd.callbackId, phase, memory⟩ :: traverseFrom r fuel' nd.next phase memory

/-- `InitOrDeinitGlobalVariables` (Runtime.cpp 58-64): walk the list from
`initHeadNode`, invoking every callback with the phase tag (the C parameter
is named `initialize`) and the memory handle. -/
def InitOrDeinitGlobalVariables (r : Registry) (phase : Nat) (memory : Option Nat) :
    List CallbackCall :=
  traverseFrom r r.nodes.length r.initHeadNode phase memory

/-- Registration of one initializer as performed by static constructors: the
static node (created with `next = nullptr`) materializes in the store at a
fresh address and is passed to `AppendToInitializersTail`. -/
def registerNode (r : Registry) (a : Nat) (cb : Nat) : Registry :=
  AppendToInitializersTail { r with nodes := r.nodes ++ [(a, ⟨cb, none⟩)] } a

/-- The head address of an intended registration sequence (address, callback). -/
def chainHead : List (Nat × Nat) → Option Nat
  | [] => none
  | (a, _) :: _ => some a

/-- The last address of an intended registration sequence. -/
def chainLast : List (Nat × Nat) → Option Nat
  | [] => none
  | (a, _) :: rest =>
    match chainLast rest with
    | none => some a
    | some b => some b

/-- The node store that a registration sequence builds: each node points to
the next registration, the last one to null. -/
def chainNodes : List (Nat × Nat) → List (Nat × InitNode)
  | [] => []
  | (a, cb) :: rest => (a, ⟨cb, chainHead rest⟩) :: chainNodes rest

/-- The registry value reached after registering the sequence `l`. -/
def chainRegistry (l : List (Nat × Nat)) : Registry :=
  ⟨chainNodes l, chainHead l, chainLast l⟩

/-! ## Lifecycle status machines and state (Runtime.cpp 39-49, 66-85) -/

/-- Per-thread `RuntimeStatus` (Runtime.cpp 39-43). -/
inductive RuntimeStatus
  | kUninitialized
  | kRunning
  | kDestroying
deriving DecidableEq, Repr

/-- `GlobalRuntimeStatus` (Runtime.cpp 79-83). -/
inductive GlobalRuntimeStatus
  | kUninitialized
  | kRunning
  | kDestroyed
deriving DecidableEq, Repr

/-- Per-thread `RuntimeState` (Runtime.cpp 45-49): memory backend handle,
worker handle, per-thread status. -/
structure RuntimeState where
  memoryState : Option Nat
  worker : Nat
  status : RuntimeStatus
deriving DecidableEq, Repr

/-- Phase tag constants (Runtime.cpp 51-56). -/
def INIT_GLOBALS : Nat := 0

def INIT_THREAD_LOCAL_GLOBALS : Nat := 1

def DEINIT_THREAD_LOCAL_GLOBALS : Nat := 2

def DEINIT_GLOBALS : Nat := 3

/-- The whole process-visible state touched by Runtime.cpp: the registry,
the per-thread TLS `runtimeState` pointers (thread id to the state the
thread's `runtimeState` points at, absent = `kInvalidRuntime`), the global
counter and status, and the two leak-checking flags (Runtime.cpp 66-67,
consulted by external collaborators only). -/
structure World where
  registry : Registry
  runtimeStates : List (Nat × RuntimeState)
  aliveRuntimesCount : Int
  globalRuntimeStatus : GlobalRuntimeStatus
  g_checkLeaks : Bool
  g_checkLeakedCleaners : Bool
deriving DecidableEq, Repr

/-- Read a thread's TLS `runtimeState` pointer (`::runtimeState`). -/
def tlsGet : List (Nat × RuntimeState) → Nat → Option RuntimeState
  | [], _ => none
  | p :: rest, t => if p.1 = t then some p.2 else tlsGet rest t

/-- `isValidRuntime()` (Runtime.cpp 73-75) for thread `t`. -/
def isValidRuntime (w : World) (t : Nat) : Bool :=
  (tlsGet w.runtimeStates t).isSome

/-- Write a thread's TLS `runtimeState` pointer / the heap object it points at. -/
def tlsSet (w : World) (t : Nat) (s : RuntimeState) : World :=
  { w with runtimeStates := (t, s) :: w.runtimeStates.filter fun p => p.1 ≠ t }

/-- `::runtimeState = kInvalidRuntime` for thread `t` (also used when the
state object is freed and the thread slot goes away). -/
def tlsClear (w : World) (t : Nat) : World :=
  { w with runtimeStates := w.runtimeStates.filter fun p => p.1 ≠ t }

/-- How an operation ends: normal return, or one of the fatal aborts.
`abortRuntimeDestroyed` is the `consoleErrorf` + `konan::abort()` at
Runtime.cpp 150-151; `abortOtherAlive n` is the diagnostic carrying the
nonzero other-alive-runtimes count at Runtime.cpp 186-187; `abortCheck` and
`abortAssert` are `RuntimeCheck`/`RuntimeAssert` failures (modelled from
the spec: fatal diagnostics per §7). -/
inductive Outcome
  | ok
  | abortRuntimeDestroyed
  | abortOtherAlive (n : Int)
  | abortCheck (msg : String)
  | abortAssert (msg : String)
deriving DecidableEq, Repr

/-- One run of `InitOrDeinitGlobalVariables` as observed in a trace. -/
structure PhaseRun where
  phase : Nat
  memory : Option Nat
  calls : List CallbackCall
deriving DecidableEq, Repr

/-- Emit one phase run over the current registry. -/
def runPhase (r : Registry) (phase : Nat) (memory : Option Nat) : PhaseRun :=
  ⟨phase, memory, InitOrDeinitGlobalVariables r phase memory⟩

/-- Modelled from the spec: `InitMemory` (legacy MM, not under `src/`)
constructs the thread's memory backend instance (§4.2); it yields a
non-null handle. -/
def InitMemory (firstRuntime : Bool) : Option Nat :=
  some (if firstRuntime then 1 else 2)

/-- Modelled from the spec: `WorkerInit` (Worker.h, not under `src/`)
stands up the per-thread worker handle (§4.2). -/
def WorkerInit (main : Bool) : Nat :=
  if main then 1 else 2

/-- Result of `initRuntime`: the outcome, the state after, the phase runs
performed, the returned `RuntimeState*` (`none` = `kInvalidRuntime`, also
`none` when the call aborted and never returned), and the value of
`firstRuntime` observed by the compare-and-set (`none` when the call ended
before the compare-and-set). -/
structure InitResult where
  outcome : Outcome
  world : World
  trace : List PhaseRun
  returned : Option RuntimeState
  firstRuntime : Option Bool
deriving DecidableEq, Repr

/-- `initRuntime` (Runtime.cpp 87-110) executed by thread `t`.  `allocOk`
is whether `konanConstructInstance<RuntimeState>()` (line 89) succeeds. -/
def initRuntime (allocOk : Bool) (t : Nat) (w : World) : InitResult :=
  -- line 88: SetKonanTerminateHandler() - external, no modelled effect
  -- lines 89-90: result = konanConstructInstance; if (!result) return kInvalidRuntime
  if !allocOk then ⟨.ok, w, [], none, none⟩
  else
  -- line 91: RuntimeCheck(!isValidRuntime(), "No active runtimes allowed")
  if isValidRuntime w t then ⟨.abortCheck "No active runtimes allowed", w, [], none, none⟩
  else
  -- line 92: ::runtimeState = result (fresh zeroed instance, status default kUninitialized)
  let w1 := tlsSet w t ⟨none, 0, .kUninitialized⟩
  -- line 93: firstRuntime = compareAndSet(&globalRuntimeStatus, kUninitialized, kRunning)
  let firstRuntime := w1.globalRuntimeStatus = .kUninitialized
  let w2 := if firstRuntime then { w1 with globalRuntimeStatus := .kRunning } else w1
  -- line 94: RuntimeCheck(atomicGet(&globalRuntimeStatus) == kRunning, "Must be running")
  if w2.globalRuntimeStatus ≠ .kRunning then
    ⟨.abortCheck "Must be running", w2, [], none, some firstRuntime⟩
  else
  -- line 95: atomicAdd(&aliveRuntimesCount, 1)
  let w3 := { w2 with aliveRuntimesCount := w2.aliveRuntimesCount + 1 }
  -- lines 96-97: result->memoryState = InitMemory(firstRuntime); result->worker = WorkerInit(true)
  let st := RuntimeState.mk (InitMemory firstRuntime) (WorkerInit true) .kUninitialized
  let w4 := tlsSet w3 t st
  -- lines 99-105: if (firstRuntime) { consoleInit; InitOrDeinitGlobalVariables(INIT_GLOBALS, ...) }
  let tr1 := if firstRuntime then [runPhase w4.registry INIT_GLOBALS st.memoryState] else []
  -- line 106: InitOrDeinitGlobalVariables(INIT_THREAD_LOCAL_GLOBALS, ...)
  let tr2 := [runPhase w4.registry INIT_THREAD_LOCAL_GLOBALS st.memoryState]
  -- line 107: RuntimeAssert(result->status == kUninitialized, ...) - holds by construction
  if st.status ≠ .kUninitialized then
    ⟨.abortAssert "Runtime must still be in the uninitialized state", w4, tr1 ++ tr2, none,
      some firstRuntime⟩
  else
  -- lines 108-109: result->status = kRunning; return result
  let st' := { st with status := RuntimeStatus.kRunning }
  ⟨.ok, tlsSet w4 t st', tr1 ++ tr2, some st', some firstRuntime⟩

/-- Result of an operation that returns nothing: outcome, state after,
phase runs performed. -/
structure OpResult where
  outcome : Outcome
  world : World
  trace : List PhaseRun
deriving DecidableEq, Repr

/-- `deinitRuntime` (Runtime.cpp 112-126) executed by thread `t` on the
state its TLS points at.  The heap mutation `state->status = kDestroying`
is reflected into the TLS view; the final `konanDestructInstance(state)`
frees the object, so the TLS pointer dangles until the caller clears it
(no modelled observer reads it in between). -/
def deinitRuntime (t : Nat) (state : RuntimeState) (destroyRuntime : Bool) (w : World) :
    OpResult :=
  -- line 113: RuntimeAssert(state->status == kRunning, ...)
  if state.status ≠ .kRunning then
    ⟨.abortAssert "Runtime must be in the running state", w, []⟩
  else
  -- line 114: state->status = kDestroying
  let st := { state with status := RuntimeStatus.kDestroying }
  let w1 := tlsSet w t st
  -- line 116: RestoreMemory(state->memoryState) - external, no modelled effect
  -- line 117: atomicAdd(&aliveRuntimesCount, -1)
  let w2 := { w1 with aliveRuntimesCount := w1.aliveRuntimesCount - 1 }
  -- line 118: InitOrDeinitGlobalVariables(DEINIT_THREAD_LOCAL_GLOBALS, ...)
  let tr1 := [runPhase w2.registry DEINIT_THREAD_LOCAL_GLOBALS st.memoryState]
  -- lines 119-120: if (destroyRuntime) InitOrDeinitGlobalVariables(DEINIT_GLOBALS, ...)
  let tr2 := if destroyRuntime then [runPhase w2.registry DEINIT_GLOBALS st.memoryState] else []
  -- lines 121-125: worker deinit, DeinitMemory, konanDestructInstance - external / frees state
  ⟨.ok, w2, tr1 ++ tr2⟩

/-- Result of `Kotlin_initRuntimeIfNeeded`: additionally records the value
of `firstRuntime` its `initRuntime` observed (if reached) and, when
`konan::onThreadExit` was called (line 155), the `runtimeState` argument it
registered for the thread-exit callback. -/
structure EnsureResult where
  outcome : Outcome
  world : World
  trace : List PhaseRun
  firstRuntime : Option Bool
  registeredExitArg : Option (Option RuntimeState)
deriving DecidableEq, Repr

/-- `Kotlin_initRuntimeIfNeeded` (Runtime.cpp 147-157) on thread `t`. -/
def Kotlin_initRuntimeIfNeeded (allocOk : Bool) (t : Nat) (w : World) : EnsureResult :=
  -- line 148: if (!isValidRuntime())
  if isValidRuntime w t then ⟨.ok, w, [], none, none⟩
  else
  -- lines 149-152: abort when the runtime was previously destroyed
  if w.globalRuntimeStatus = .kDestroyed then ⟨.abortRuntimeDestroyed, w, [], none, none⟩
  else
  -- line 153: initRuntime()
  let r := initRuntime allocOk t w
  match r.outcome with
  | .ok =>
    -- line 155: konan::onThreadExit(Kotlin_deinitRuntimeCallback, runtimeState)
    ⟨.ok, r.world, r.trace, r.firstRuntime, some (tlsGet r.world.runtimeStates t)⟩
  | o => ⟨o, r.world, r.trace, r.firstRuntime, none⟩

/-- `Kotlin_deinitRuntimeIfNeeded` (Runtime.cpp 159-164) on thread `t`. -/
def Kotlin_deinitRuntimeIfNeeded (t : Nat) (w : World) : OpResult :=
  -- line 160: if (isValidRuntime())
  match tlsGet w.runtimeStates t with
  | none => ⟨.ok, w, []⟩
  | some state =>
    -- line 161: deinitRuntime(::runtimeState, false)
    let r := deinitRuntime t state false w
    match r.outcome with
    | .ok =>
      -- line 162: ::runtimeState = kInvalidRuntime
      ⟨.ok, tlsClear r.world t, r.trace⟩
    | o => ⟨o, r.world, r.trace⟩

/-- `Kotlin_deinitRuntimeCallback` (Runtime.cpp 128-131), run at thread
exit on the registered state; it does not clear the TLS pointer (the
thread, and with it the TLS slot, is going away), modelled by dropping the
thread's slot after the call. -/
def Kotlin_deinitRuntimeCallbackAtExit (t : Nat) (w : World) : OpResult :=
  match tlsGet w.runtimeStates t with
  | none => ⟨.ok, w, []⟩
  | some state =>
    let r := deinitRuntime t state false w
    ⟨r.outcome, tlsClear r.world t, r.trace⟩

/-- `Kotlin_destroyRuntime` (Runtime.cpp 166-192) on thread `t`. -/
def Kotlin_destroyRuntime (t : Nat) (w : World) : OpResult :=
  -- line 167: RuntimeAssert(atomicGet(&globalRuntimeStatus) == kRunning, ...)
  if w.globalRuntimeStatus ≠ .kRunning then
    ⟨.abortAssert "Kotlin runtime must be running", w, []⟩
  else
  -- line 168: RuntimeAssert(isValidRuntime(), ...)
  match tlsGet w.runtimeStates t with
  | none => ⟨.abortAssert "Current thread must have Kotlin runtime on it.", w, []⟩
  | some state =>
    -- lines 170-179: cleaners / GC / worker waits, gated on the leak flags - external
    -- line 181: atomicSet(&globalRuntimeStatus, kDestroyed)
    let w1 := { w with globalRuntimeStatus := GlobalRuntimeStatus.kDestroyed }
    -- line 183: otherRuntimesCount = atomicGet(&aliveRuntimesCount) - 1
    let otherRuntimesCount := w1.aliveRuntimesCount - 1
    -- line 184: RuntimeAssert(otherRuntimesCount >= 0, "Cannot be negative.")
    if otherRuntimesCount < 0 then ⟨.abortAssert "Cannot be negative.", w1, []⟩
    else
    -- lines 185-188: consoleErrorf + abort when other runtimes are still alive
    if otherRuntimesCount > 0 then ⟨.abortOtherAlive otherRuntimesCount, w1, []⟩
    else
    -- line 190: deinitRuntime(::runtimeState, true)
    let r := deinitRuntime t state true w1
    match r.outcome with
    | .ok =>
      -- line 191: ::runtimeState = kInvalidRuntime
      ⟨.ok, tlsClear r.world t, r.trace⟩
    | o => ⟨o, r.world, r.trace⟩

/-- `Kotlin_zeroOutTLSGlobals` (Runtime.cpp 262-265) on thread `t`. -/
def Kotlin_zeroOutTLSGlobals (t : Nat) (w : World) : OpResult :=
  match tlsGet w.runtimeStates t with
  | none => ⟨.ok, w, []⟩
  | some state =>
    match state.memoryState with
    | none => ⟨.ok, w, []⟩
    | some m => ⟨.ok, w, [runPhase w.registry DEINIT_THREAD_LOCAL_GLOBALS (some m)]⟩

/-! ## Whole-process runs -/

/-- The operations a process can perform against the lifecycle, at the
granularity of the public entry points. -/
inductive Op
  | ensure (allocOk : Bool) (t : Nat)
  | deinitIfNeeded (t : Nat)
  | destroy (t : Nat)
  | zeroOutTLS (t : Nat)
  | threadExit (t : Nat)
deriving DecidableEq, Repr

/-- Execute one operation. -/
def stepOp (op : Op) (w : World) : OpResult :=
  match op with
  | .ensure allocOk t =>
    let r := Kotlin_initRuntimeIfNeeded allocOk t w
    ⟨r.outcome, r.world, r.trace⟩
  | .deinitIfNeeded t => Kotlin_deinitRuntimeIfNeeded t w
  | .destroy t => Kotlin_destroyRuntime t w
  | .zeroOutTLS t => Kotlin_zeroOutTLSGlobals t w
  | .threadExit t => Kotlin_deinitRuntimeCallbackAtExit t w

/-- Process state: still running, or dead after a fatal abort (the world at
the abort point is kept for inspection). -/
inductive Proc
  | running (w : World)
  | aborted (o : Outcome) (w : World)
deriving DecidableEq, Repr

/-- One step of the whole process; after an abort nothing further runs. -/
def step (p : Proc) (op : Op) : Proc × List PhaseRun :=
  match p with
  | .aborted o w => (.aborted o w, [])
  | .running w =>
    let r := stepOp op w
    match r.outcome with
    | .ok => (.running r.world, r.trace)
    | o => (.aborted o r.world, r.trace)

/-- Run a sequence of operations, concatenating the phase runs performed. -/
def run (p : Proc) : List Op → Proc × List PhaseRun
  | [] => (p, [])
  | op :: ops =>
    let s := step p op
    let rest := run s.1 ops
    (rest.1, s.2 ++ rest.2)

/-- The state at process start: registry as built by static registration,
no thread has a runtime, counter zero, status `kUninitialized`
(Runtime.cpp 36-37, 71, 77, 85), leak flags from `KonanNeedDebugInfo`
(Runtime.cpp 66-67, a build-time constant, here a parameter). -/
def initialWorld (r : Registry) (konanNeedDebugInfo : Bool) : World :=
  ⟨r, [], 0, .kUninitialized, konanNeedDebugInfo, konanNeedDebugInfo⟩

end KotlinRuntime

namespace KotlinRuntime

/-! ## Registry lemmas (towards C6) -/

theorem chainHead_append (l l' : List (Nat × Nat)) (h : l ≠ []) :
    chainHead (l ++ l') = chainHead l := by
  cases l with
  | nil => exact absurd rfl h
  | cons p t => rfl

theorem chainLast_append_one (l : List (Nat × Nat)) (a cb : Nat) :
    chainLast (l ++ [(a, cb)]) = some a := by
  induction l with
  | nil => rfl
  | cons p t ih =>
    cases p with
    | mk a' cb' => simp [chainLast, ih]

theorem chainLast_mem (l : List (Nat × Nat)) (b : Nat) (h : chainLast l = some b) :
    b ∈ l.map Prod.fst := by
  induction l with
  | nil => cases h
  | cons p t ih =>
    unfold chainLast at h
    cases hlt : chainLast t with
    | none =>
      rw [hlt] at h
      simp at h
      simp [h]
    | some c =>
      rw [hlt] at h
      simp at h
      subst h
      simp [ih hlt]

theorem chainLast_cons_ne_none (p : Nat × Nat) (t : List (Nat × Nat)) :
    chainLast (p :: t) ≠ none := by
  unfold chainLast
  cases chainLast t <;> simp

theorem chainNodes_length (l : List (Nat × Nat)) :
    (chainNodes l).length = l.length := by
  induction l with
  | nil => rfl
  | cons p t ih =>
    cases p with
    | mk a cb => simp [chainNodes, ih]

theorem lookupNode_chain (l₁ : List (Nat × Nat)) (a cb : Nat) (l₂ : List (Nat × Nat))
    (hnd : ((l₁ ++ (a, cb) :: l₂).map Prod.fst).Nodup) :
    lookupNode (chainNodes (l₁ ++ (a, cb) :: l₂)) a = some ⟨cb, chainHead l₂⟩ := by
  induction l₁ with
  | nil => simp [chainNodes, lookupNode]
  | cons p t ih =>
    have h1 : p.1 ∉ ((t ++ (a, cb) :: l₂).map Prod.fst) := by
      simp only [List.cons_append, List.map_cons] at hnd
      exact (List.nodup_cons.mp hnd).1
    have hnd' : ((t ++ (a, cb) :: l₂).map Prod.fst).Nodup := by
      simp only [List.cons_append, List.map_cons] at hnd
      exact (List.nodup_cons.mp hnd).2
    have hpa : p.1 ≠ a := by
      intro he
      apply h1
      rw [he]
      simp
    cases p with
    | mk pa pcb =>
      simp only [List.cons_append, chainNodes, lookupNode]
      rw [if_neg (by simpa using hpa)]
      exact ih hnd'

theorem setNext_chainNodes (l : List (Nat × Nat)) (a cb tailA : Nat)
    (hnd : (l.map Prod.fst).Nodup) (hfresh : a ∉ l.map Prod.fst)
    (hlast : chainLast l = some tailA) :
    ((chainNodes l ++ [(a, InitNode.mk cb none)]).map fun p =>
        if p.1 = tailA then (p.1, InitNode.mk p.2.callbackId (some a)) else p) =
      chainNodes (l ++ [(a, cb)]) := by
  induction l with
  | nil => cases hlast
  | cons p t ih =>
    cases t with
    | nil =>
      have hta : tailA = p.1 := by
        unfold chainLast at hlast
        simp [chainLast] at hlast
        omega
      have hap : ¬a = p.1 := by
        intro he
        apply hfresh
        simp [he]
      subst hta
      cases p with
      | mk pa pcb =>
        simp [chainNodes, chainHead, hap]
    | cons q u =>
      have hlt : chainLast (q :: u) = some tailA := by
        unfold chainLast at hlast
        cases hqu : chainLast (q :: u) with
        | none => exact absurd hqu (chainLast_cons_ne_none q u)
        | some b =>
          rw [hqu] at hlast
          simpa [hqu] using hlast
      have hmem : tailA ∈ (q :: u).map Prod.fst := chainLast_mem _ _ hlt
      have hpt : p.1 ≠ tailA := by
        intro he
        have : p.1 ∉ ((q :: u).map Prod.fst) := by
          simp only [List.map_cons] at hnd
          have h2 := (List.nodup_cons.mp hnd).1
          simpa using h2
        rw [he] at this
        exact this hmem
      have hnd' : ((q :: u).map Prod.fst).Nodup := by
        simp only [List.map_cons] at hnd
        exact (List.nodup_cons.mp hnd).2
      have hfresh' : a ∉ (q :: u).map Prod.fst := by
        intro hmem'
        apply hfresh
        simp only [List.map_cons]
        exact List.mem_cons_of_mem _ hmem'
      cases p with
      | mk pa pcb =>
        have hih := ih hnd' hfresh' hlt
        have hu1 : chainNodes ((pa, pcb) :: q :: u)
            = (pa, InitNode.mk pcb (chainHead (q :: u))) :: chainNodes (q :: u) := rfl
        have hu2 : chainNodes (((pa, pcb) :: q :: u) ++ [(a, cb)])
            = (pa, InitNode.mk pcb (chainHead ((q :: u) ++ [(a, cb)]))) ::
                chainNodes ((q :: u) ++ [(a, cb)]) := rfl
        rw [hu1, hu2, List.cons_append, List.map_cons]
        rw [if_neg (by simpa using hpt)]
        rw [hih]
        rw [chainHead_append (q :: u) [(a, cb)] (by simp)]

theorem registerNode_chain (l : List (Nat × Nat)) (a cb : Nat)
    (hnd : (l.map Prod.fst).Nodup) (hfresh : a ∉ l.map Prod.fst) :
    registerNode (chainRegistry l) a cb = chainRegistry (l ++ [(a, cb)]) := by
  cases l with
  | nil => rfl
  | cons p t =>
    cases hlast : chainLast (p :: t) with
    | none => exact absurd hlast (chainLast_cons_ne_none p t)
    | some tailA =>
      cases p with
      | mk pa pcb =>
        unfold registerNode chainRegistry AppendToInitializersTail
        simp only [chainHead, hlast]
        unfold Registry.setNext
        simp only []
        rw [Registry.mk.injEq]
        refine ⟨?_, ?_, ?_⟩
        · exact setNext_chainNodes ((pa, pcb) :: t) a cb tailA hnd hfresh hlast
        · rfl
        · rw [chainLast_append_one]

theorem traverseFrom_chain (l : List (Nat × Nat)) (hnd : (l.map Prod.fst).Nodup)
    (ph : Nat) (mem : Option Nat) (l₂ : List (Nat × Nat)) :
    ∀ (l₁ : List (Nat × Nat)) (fuel : Nat), l = l₁ ++ l₂ → l₂.length ≤ fuel →
      traverseFrom (chainRegistry l) fuel (chainHead l₂) ph mem
        = l₂.map fun p => ⟨p.2, ph, mem⟩ := by
  induction l₂ with
  | nil =>
    intro l₁ fuel h hfuel
    cases fuel <;> simp [traverseFrom, chainHead]
  | cons p t ih =>
    intro l₁ fuel h hfuel
    cases fuel with
    | zero => simp at hfuel
    | succ f =>
      cases p with
      | mk a cb =>
        have hget : (chainRegistry l).get a = some (InitNode.mk cb (chainHead t)) := by
          subst h
          exact lookupNode_chain l₁ a cb t hnd
        have hch : chainHead ((a, cb) :: t) = some a := rfl
        rw [hch]
        simp only [traverseFrom, hget, List.map_cons]
        rw [ih (l₁ ++ [(a, cb)]) f (by rw [h]; simp) (by simpa using hfuel)]

theorem InitOrDeinitGlobalVariables_chain (l : List (Nat × Nat))
    (hnd : (l.map Prod.fst).Nodup) (ph : Nat) (mem : Option Nat) :
    InitOrDeinitGlobalVariables (chainRegistry l) ph mem
      = l.map fun p => ⟨p.2, ph, mem⟩ := by
  unfold InitOrDeinitGlobalVariables
  exact traverseFrom_chain l hnd ph mem l [] ((chainNodes l).length) rfl
    (by rw [chainNodes_length])

/-- C6: `AppendToInitializersTail` (via `registerNode`, which materializes
the static node with null `next` and appends it) extends the registry
reached by the registration sequence `l` to exactly the registry of
`l ++ [(a, cb)]` — all previously registered nodes and their order are
preserved, the new node is at the tail — and `InitOrDeinitGlobalVariables`
invokes every registered callback exactly once, in registration
(head-to-tail) order, passing each the given phase tag and memory-state
handle.  Hypotheses: node addresses are distinct and the appended node is
fresh (automatic for distinct static objects in C). -/
theorem C6_registry_append_and_run_order :
    (∀ (l : List (Nat × Nat)) (a cb : Nat), (l.map Prod.fst).Nodup →
      a ∉ l.map Prod.fst →
      registerNode (chainRegistry l) a cb = chainRegistry (l ++ [(a, cb)])) ∧
    (∀ (l : List (Nat × Nat)) (phase : Nat) (memory : Option Nat),
      (l.map Prod.fst).Nodup →
      InitOrDeinitGlobalVariables (chainRegistry l) phase memory
        = l.map fun p => ⟨p.2, phase, memory⟩) :=
  ⟨registerNode_chain, fun l phase memory hnd =>
    InitOrDeinitGlobalVariables_chain l hnd phase memory⟩

/-- Witness for C6 at a concrete three-node registry. -/
theorem C6_registry_append_and_run_order_witness :
    registerNode (chainRegistry [(10, 100), (20, 200)]) 30 300
        = chainRegistry [(10, 100), (20, 200), (30, 300)] ∧
      InitOrDeinitGlobalVariables (chainRegistry [(10, 100), (20, 200), (30, 300)]) 1 (some 7)
        = [⟨100, 1, some 7⟩, ⟨200, 1, some 7⟩, ⟨300, 1, some 7⟩] :=
  ⟨C6_registry_append_and_run_order.1 [(10, 100), (20, 200)] 30 300 (by decide) (by decide),
    by
      rw [C6_registry_append_and_run_order.2 [(10, 100), (20, 200), (30, 300)] 1 (some 7)
        (by decide)]
      decide⟩

/-! ## Basic facts about the lifecycle operations -/

theorem tlsSet_globalStatus (w : World) (t : Nat) (s : RuntimeState) :
    (tlsSet w t s).globalRuntimeStatus = w.globalRuntimeStatus := rfl

theorem deinitRuntime_globalStatus (t : Nat) (st : RuntimeState) (d : Bool) (w : World) :
    (deinitRuntime t st d w).world.globalRuntimeStatus = w.globalRuntimeStatus := by
  unfold deinitRuntime
  split
  · rfl
  · rfl

/-- A world of the C1/C3 scenario: threads 0 and 1 both hold running
runtimes, count 2, global status Running. -/
def twoThreadWorld : World :=
  ⟨Registry.empty, [(0, ⟨some 1, 1, .kRunning⟩), (1, ⟨some 2, 1, .kRunning⟩)], 2,
    .kRunning, false, false⟩

/-- C1 counterexample: with thread 1 still holding a live runtime, thread
0's `Kotlin_destroyRuntime` does abort with the nonzero other-alive count,
but the global status at the abort point is `kDestroyed`, not the
unchanged `kRunning` the claim requires (Runtime.cpp sets the status at
line 181, before the aliveness check at 183-188). -/
theorem C1_counterexample :
    twoThreadWorld.globalRuntimeStatus = .kRunning ∧
      (Kotlin_destroyRuntime 0 twoThreadWorld).outcome = .abortOtherAlive 1 ∧
      (Kotlin_destroyRuntime 0 twoThreadWorld).world.globalRuntimeStatus = .kDestroyed := by
  decide

/-- C1 (amended): if `Kotlin_destroyRuntime` runs while the global status
is Running, the caller holds a runtime, and at least one other thread
still holds a live runtime (count ≥ 2), the call aborts with the
diagnostic carrying the nonzero other-alive-runtimes count — but at the
abort point the global status has already been set to Destroyed (the
`atomicSet` at Runtime.cpp 181 precedes the check at 183-188); the only
other state change before the abort is none at all. -/
theorem C1_destroy_aborts_with_status_destroyed (t : Nat) (w : World) (st : RuntimeState)
    (hg : w.globalRuntimeStatus = .kRunning)
    (ht : tlsGet w.runtimeStates t = some st)
    (hc : 1 < w.aliveRuntimesCount) :
    Kotlin_destroyRuntime t w
      = ⟨.abortOtherAlive (w.aliveRuntimesCount - 1),
          { w with globalRuntimeStatus := GlobalRuntimeStatus.kDestroyed }, []⟩ ∧
      0 < w.aliveRuntimesCount - 1 := by
  constructor
  · unfold Kotlin_destroyRuntime
    rw [hg, ht]
    rw [if_neg (by simp)]
    dsimp only
    rw [if_neg (by omega)]
    rw [if_pos (by omega)]
  · omega

/-- Witness for C1 (amended) at the concrete two-thread world. -/
theorem C1_destroy_aborts_with_status_destroyed_witness :
    Kotlin_destroyRuntime 0 twoThreadWorld
      = ⟨.abortOtherAlive 1,
          { twoThreadWorld with globalRuntimeStatus := GlobalRuntimeStatus.kDestroyed }, []⟩ ∧
      (0 : Int) < twoThreadWorld.aliveRuntimesCount - 1 :=
  ⟨(C1_destroy_aborts_with_status_destroyed 0 twoThreadWorld ⟨some 1, 1, .kRunning⟩
      (by decide) (by decide) (by decide)).1,
    (C1_destroy_aborts_with_status_destroyed 0 twoThreadWorld ⟨some 1, 1, .kRunning⟩
      (by decide) (by decide) (by decide)).2⟩

theorem tlsClear_globalStatus (w : World) (t : Nat) :
    (tlsClear w t).globalRuntimeStatus = w.globalRuntimeStatus := rfl

/-- A world in which a single thread 0 holds the only running runtime. -/
def oneThreadWorld : World :=
  ⟨Registry.empty, [(0, ⟨some 1, 1, .kRunning⟩)], 1, .kRunning, false, false⟩

/-- C3: when `Kotlin_destroyRuntime` runs from a state satisfying its
entry contract (global status Running and the calling thread holding a
runtime), then on every exit path — normal return or any of the aborts
reached past the entry assertions — the global status is Destroyed; and
from any world whose global status is Destroyed, `Kotlin_initRuntimeIfNeeded`
on a thread with no per-thread runtime aborts (after the diagnostic,
Runtime.cpp 150-151) and changes nothing: no runtime is created. -/
theorem C3_destroyed_terminal (t : Nat) (w : World) (st : RuntimeState)
    (hg : w.globalRuntimeStatus = .kRunning)
    (ht : tlsGet w.runtimeStates t = some st) :
    (Kotlin_destroyRuntime t w).world.globalRuntimeStatus = .kDestroyed ∧
      ∀ (w' : World) (allocOk : Bool) (t' : Nat),
        w'.globalRuntimeStatus = .kDestroyed →
        tlsGet w'.runtimeStates t' = none →
        Kotlin_initRuntimeIfNeeded allocOk t' w'
          = ⟨.abortRuntimeDestroyed, w', [], none, none⟩ := by
  constructor
  · unfold Kotlin_destroyRuntime
    rw [hg, ht]
    rw [if_neg (by simp)]
    dsimp only
    by_cases h1 : w.aliveRuntimesCount - 1 < 0
    · rw [if_pos h1]
    · rw [if_neg h1]
      by_cases h2 : w.aliveRuntimesCount - 1 > 0
      · rw [if_pos h2]
      · rw [if_neg h2]
        cases hout : (deinitRuntime t st true
            { w with globalRuntimeStatus := GlobalRuntimeStatus.kDestroyed }).outcome
        all_goals simp only [hout]
        all_goals first
          | rw [tlsClear_globalStatus, deinitRuntime_globalStatus]
          | rw [deinitRuntime_globalStatus]
  · intro w' allocOk t' hg' ht'
    unfold Kotlin_initRuntimeIfNeeded
    simp [isValidRuntime, ht', hg']

/-- Witness for C3: destroy from a single-thread world, then an init on a
fresh thread against the resulting world. -/
theorem C3_destroyed_terminal_witness :
    (Kotlin_destroyRuntime 0 oneThreadWorld).world.globalRuntimeStatus = .kDestroyed ∧
      Kotlin_initRuntimeIfNeeded true 5 (Kotlin_destroyRuntime 0 oneThreadWorld).world
        = ⟨.abortRuntimeDestroyed, (Kotlin_destroyRuntime 0 oneThreadWorld).world,
            [], none, none⟩ :=
  have h := C3_destroyed_terminal 0 oneThreadWorld ⟨some 1, 1, .kRunning⟩
    (by decide) (by decide)
  ⟨h.1, h.2 _ true 5 h.1 (by decide)⟩

/-- C5: every successful runtime initialization (a non-null state is
returned with outcome ok) runs the INIT_THREAD_LOCAL_GLOBALS phase for the
calling thread, as the last phase of the call; when the call observed
`firstRuntime = true` the INIT_GLOBALS phase runs immediately before it,
and when it observed `firstRuntime = false` no INIT_GLOBALS phase runs;
afterwards the per-thread status of the state stored in the thread's TLS
(which is the returned state) is `kRunning`. -/
theorem C5_init_phase_order (allocOk : Bool) (t : Nat) (w : World)
    (hok : (initRuntime allocOk t w).outcome = .ok)
    (hret : (initRuntime allocOk t w).returned ≠ none) :
    ∃ b : Bool, (initRuntime allocOk t w).firstRuntime = some b ∧
      (initRuntime allocOk t w).trace
        = (if b then [runPhase w.registry INIT_GLOBALS (InitMemory b)] else [])
            ++ [runPhase w.registry INIT_THREAD_LOCAL_GLOBALS (InitMemory b)] ∧
      ∃ st : RuntimeState,
        tlsGet (initRuntime allocOk t w).world.runtimeStates t = some st ∧
        st.status = .kRunning ∧ (initRuntime allocOk t w).returned = some st := by
  cases allocOk with
  | false => exact absurd rfl hret
  | true =>
    by_cases hv : isValidRuntime w t
    · rw [initRuntime] at hok
      simp [hv] at hok
    · cases hg : w.globalRuntimeStatus with
      | kUninitialized =>
        refine ⟨true, ?_, ?_,
          RuntimeState.mk (InitMemory true) (WorkerInit true) .kRunning, ?_, rfl, ?_⟩
        all_goals simp [initRuntime, hv, hg, tlsSet, tlsGet]
      | kRunning =>
        refine ⟨false, ?_, ?_,
          RuntimeState.mk (InitMemory false) (WorkerInit true) .kRunning, ?_, rfl, ?_⟩
        all_goals simp [initRuntime, hv, hg, tlsSet, tlsGet]
      | kDestroyed =>
        rw [initRuntime] at hok
        simp [hv, hg, tlsSet] at hok

/-- Witness for C5: the first init on a fresh world. -/
theorem C5_init_phase_order_witness :
    (initRuntime true 0 (initialWorld Registry.empty false)).outcome = .ok ∧
      (∃ b : Bool,
        (initRuntime true 0 (initialWorld Registry.empty false)).firstRuntime = some b ∧
        (initRuntime true 0 (initialWorld Registry.empty false)).trace
          = (if b then [runPhase (initialWorld Registry.empty false).registry INIT_GLOBALS
                (InitMemory b)] else [])
              ++ [runPhase (initialWorld Registry.empty false).registry
                    INIT_THREAD_LOCAL_GLOBALS (InitMemory b)] ∧
        ∃ st : RuntimeState,
          tlsGet (initRuntime true 0
              (initialWorld Registry.empty false)).world.runtimeStates 0 = some st ∧
          st.status = .kRunning ∧
          (initRuntime true 0 (initialWorld Registry.empty false)).returned = some st) :=
  ⟨by decide,
    C5_init_phase_order true 0 (initialWorld Registry.empty false) (by decide) (by decide)⟩

theorem tlsGet_filter_self (l : List (Nat × RuntimeState)) (t : Nat) :
    tlsGet (l.filter fun p => p.1 ≠ t) t = none := by
  induction l with
  | nil => rfl
  | cons p rest ih =>
    rw [List.filter_cons]
    by_cases hp : p.1 = t
    · rw [if_neg (by simp [hp])]
      exact ih
    · rw [if_pos (by simp [hp])]
      simp only [tlsGet]
      rw [if_neg hp]
      exact ih

/-- The no-op half of `Kotlin_deinitRuntimeIfNeeded` (Runtime.cpp 160). -/
theorem deinitIfNeeded_noop (t : Nat) (w : World)
    (h : tlsGet w.runtimeStates t = none) :
    Kotlin_deinitRuntimeIfNeeded t w = ⟨.ok, w, []⟩ := by
  unfold Kotlin_deinitRuntimeIfNeeded
  rw [h]

/-- C8: `Kotlin_deinitRuntimeIfNeeded` is idempotent.  On a thread whose
TLS holds no runtime it is the exact no-op (state and trace untouched).
On a thread holding a running runtime, the call tears down once — one
DEINIT_THREAD_LOCAL_GLOBALS phase, counter decremented, TLS cleared — and
an immediately following second call is the exact no-op because the first
call cleared the thread's `runtimeState`. -/
theorem C8_deinit_idempotent (t : Nat) (w : World) :
    (tlsGet w.runtimeStates t = none → Kotlin_deinitRuntimeIfNeeded t w = ⟨.ok, w, []⟩) ∧
      ∀ st : RuntimeState, tlsGet w.runtimeStates t = some st → st.status = .kRunning →
        (Kotlin_deinitRuntimeIfNeeded t w).outcome = .ok ∧
        (Kotlin_deinitRuntimeIfNeeded t w).trace
          = [runPhase w.registry DEINIT_THREAD_LOCAL_GLOBALS st.memoryState] ∧
        (Kotlin_deinitRuntimeIfNeeded t w).world.aliveRuntimesCount
          = w.aliveRuntimesCount - 1 ∧
        tlsGet (Kotlin_deinitRuntimeIfNeeded t w).world.runtimeStates t = none ∧
        Kotlin_deinitRuntimeIfNeeded t (Kotlin_deinitRuntimeIfNeeded t w).world
          = ⟨.ok, (Kotlin_deinitRuntimeIfNeeded t w).world, []⟩ := by
  constructor
  · exact deinitIfNeeded_noop t w
  · intro st hst hrun
    have hres : Kotlin_deinitRuntimeIfNeeded t w
        = ⟨.ok,
            World.mk w.registry
              (((t, { st with status := RuntimeStatus.kDestroying }) ::
                  w.runtimeStates.filter fun p => p.1 ≠ t).filter fun p => p.1 ≠ t)
              (w.aliveRuntimesCount - 1) w.globalRuntimeStatus w.g_checkLeaks
              w.g_checkLeakedCleaners,
            [runPhase w.registry DEINIT_THREAD_LOCAL_GLOBALS st.memoryState]⟩ := by
      unfold Kotlin_deinitRuntimeIfNeeded deinitRuntime
      rw [hst]
      dsimp only
      rw [if_neg (by simp [hrun])]
      rfl
    have hnone : tlsGet (Kotlin_deinitRuntimeIfNeeded t w).world.runtimeStates t = none := by
      rw [hres]
      exact tlsGet_filter_self _ t
    refine ⟨by rw [hres], by rw [hres], ?_, hnone, deinitIfNeeded_noop t _ hnone⟩
    rw [hres]

/-- Witness for C8 at the concrete single-thread world. -/
theorem C8_deinit_idempotent_witness :
    Kotlin_deinitRuntimeIfNeeded 7 oneThreadWorld = ⟨.ok, oneThreadWorld, []⟩ ∧
      (Kotlin_deinitRuntimeIfNeeded 0 oneThreadWorld).outcome = .ok ∧
      (Kotlin_deinitRuntimeIfNeeded 0 oneThreadWorld).trace
        = [runPhase oneThreadWorld.registry DEINIT_THREAD_LOCAL_GLOBALS (some 1)] ∧
      (Kotlin_deinitRuntimeIfNeeded 0 oneThreadWorld).world.aliveRuntimesCount
        = oneThreadWorld.aliveRuntimesCount - 1 ∧
      tlsGet (Kotlin_deinitRuntimeIfNeeded 0 oneThreadWorld).world.runtimeStates 0 = none ∧
      Kotlin_deinitRuntimeIfNeeded 0 (Kotlin_deinitRuntimeIfNeeded 0 oneThreadWorld).world
        = ⟨.ok, (Kotlin_deinitRuntimeIfNeeded 0 oneThreadWorld).world, []⟩ :=
  ⟨(C8_deinit_idempotent 7 oneThreadWorld).1 (by decide),
    (C8_deinit_idempotent 0 oneThreadWorld).2 ⟨some 1, 1, .kRunning⟩ (by decide) (by decide)⟩

/-- C10: `Kotlin_zeroOutTLSGlobals` is a no-op when the calling thread's
`runtimeState` is null or its `memoryState` is null; otherwise it runs
exactly one DEINIT_THREAD_LOCAL_GLOBALS phase over the registry with the
thread's memory handle and leaves the whole state — the thread's
`RuntimeState`, the global status, and `aliveRuntimesCount` — unchanged. -/
theorem C10_zeroOutTLS_frame (t : Nat) (w : World) :
    (tlsGet w.runtimeStates t = none → Kotlin_zeroOutTLSGlobals t w = ⟨.ok, w, []⟩) ∧
      (∀ st : RuntimeState, tlsGet w.runtimeStates t = some st → st.memoryState = none →
        Kotlin_zeroOutTLSGlobals t w = ⟨.ok, w, []⟩) ∧
      ∀ (st : RuntimeState) (m : Nat),
        tlsGet w.runtimeStates t = some st → st.memoryState = some m →
        Kotlin_zeroOutTLSGlobals t w
          = ⟨.ok, w, [runPhase w.registry DEINIT_THREAD_LOCAL_GLOBALS (some m)]⟩ := by
  refine ⟨fun h => ?_, fun st hst hm => ?_, fun st m hst hm => ?_⟩
  · unfold Kotlin_zeroOutTLSGlobals
    rw [h]
  · unfold Kotlin_zeroOutTLSGlobals
    rw [hst]
    dsimp only
    rw [hm]
  · unfold Kotlin_zeroOutTLSGlobals
    rw [hst]
    dsimp only
    rw [hm]

/-- Witness for C10: all three branches at concrete worlds. -/
theorem C10_zeroOutTLS_frame_witness :
    Kotlin_zeroOutTLSGlobals 9 oneThreadWorld = ⟨.ok, oneThreadWorld, []⟩ ∧
      Kotlin_zeroOutTLSGlobals 0
          ⟨Registry.empty, [(0, ⟨none, 1, .kRunning⟩)], 1, .kRunning, false, false⟩
        = ⟨.ok, ⟨Registry.empty, [(0, ⟨none, 1, .kRunning⟩)], 1, .kRunning, false, false⟩, []⟩ ∧
      Kotlin_zeroOutTLSGlobals 0 oneThreadWorld
        = ⟨.ok, oneThreadWorld,
            [runPhase oneThreadWorld.registry DEINIT_THREAD_LOCAL_GLOBALS (some 1)]⟩ :=
  ⟨(C10_zeroOutTLS_frame 9 oneThreadWorld).1 (by decide),
    (C10_zeroOutTLS_frame 0
        ⟨Registry.empty, [(0, ⟨none, 1, .kRunning⟩)], 1, .kRunning, false, false⟩).2.1
      ⟨none, 1, .kRunning⟩ (by decide) (by decide),
    (C10_zeroOutTLS_frame 0 oneThreadWorld).2.2 ⟨some 1, 1, .kRunning⟩ 1
      (by decide) (by decide)⟩

/-- C9 counterexample: when `konanConstructInstance` fails on a fresh
world, `initRuntime` does return the null `kInvalidRuntime` — but
`Kotlin_initRuntimeIfNeeded` does not abort: its outcome is a normal
return (not any abort), the state is unchanged, and it even registers the
thread-exit callback with the still-invalid (null) `runtimeState`. -/
theorem C9_counterexample :
    (initRuntime false 0 (initialWorld Registry.empty false)).returned = none ∧
      (Kotlin_initRuntimeIfNeeded false 0 (initialWorld Registry.empty false)).outcome
        = .ok ∧
      (Kotlin_initRuntimeIfNeeded false 0 (initialWorld Registry.empty false)).world
        = initialWorld Registry.empty false ∧
      (Kotlin_initRuntimeIfNeeded false 0
          (initialWorld Registry.empty false)).registeredExitArg = some none := by
  decide

/-- C9 (amended): if allocation of the per-thread runtime state fails, the
failure is propagated as the null `kInvalidRuntime` result of `initRuntime`
(Runtime.cpp 89-90) — but `Kotlin_initRuntimeIfNeeded` does not abort: it
returns normally with all state unchanged, leaving the thread without a
runtime, and still registers the thread-exit callback with the invalid
(null) `runtimeState` (Runtime.cpp 155). -/
theorem C9_alloc_failure_no_abort (t : Nat) (w : World)
    (hv : tlsGet w.runtimeStates t = none)
    (hg : w.globalRuntimeStatus ≠ .kDestroyed) :
    initRuntime false t w = ⟨.ok, w, [], none, none⟩ ∧
      Kotlin_initRuntimeIfNeeded false t w = ⟨.ok, w, [], none, some none⟩ := by
  constructor
  · rfl
  · unfold Kotlin_initRuntimeIfNeeded
    rw [if_neg (by simp [isValidRuntime, hv])]
    rw [if_neg hg]
    simp [initRuntime, hv]

/-- Witness for C9 (amended) on the fresh world. -/
theorem C9_alloc_failure_no_abort_witness :
    initRuntime false 3 (initialWorld Registry.empty true)
        = ⟨.ok, initialWorld Registry.empty true, [], none, none⟩ ∧
      Kotlin_initRuntimeIfNeeded false 3 (initialWorld Registry.empty true)
        = ⟨.ok, initialWorld Registry.empty true, [], none, some none⟩ :=
  C9_alloc_failure_no_abort 3 (initialWorld Registry.empty true) (by decide) (by decide)

/-! ## C2: concurrent initialization observed at compare-and-set granularity.
The compare-and-set at Runtime.cpp 93 is the single atomic point deciding
`firstRuntime`, so every interleaving of N `Kotlin_initRuntimeIfNeeded`
calls is captured by the order in which the threads reach it. -/

theorem tlsGet_cons_ne (t t' : Nat) (s : RuntimeState) (l : List (Nat × RuntimeState))
    (h : t' ≠ t) : tlsGet ((t, s) :: l) t' = tlsGet l t' := by
  simp only [tlsGet]
  rw [if_neg fun he => h he.symm]

theorem tlsGet_filter_ne (l : List (Nat × RuntimeState)) (t t' : Nat) (h : t' ≠ t) :
    tlsGet (l.filter fun p => p.1 ≠ t) t' = tlsGet l t' := by
  induction l with
  | nil => rfl
  | cons p rest ih =>
    rw [List.filter_cons]
    by_cases hp : p.1 = t
    · rw [if_neg (by simp [hp])]
      rw [ih]
      simp only [tlsGet]
      rw [if_neg (by rw [hp]; exact fun he => h he.symm)]
    · rw [if_pos (by simp [hp])]
      simp only [tlsGet]
      by_cases hp' : p.1 = t'
      · rw [if_pos hp', if_pos hp']
      · rw [if_neg hp', if_neg hp']
        exact ih

theorem tlsGet_filter_bne (l : List (Nat × RuntimeState)) (t t' : Nat) (h : t' ≠ t) :
    tlsGet (l.filter fun p => !decide (p.1 = t)) t' = tlsGet l t' := by
  have hfun : (fun p : Nat × RuntimeState => decide (p.1 ≠ t))
      = fun p : Nat × RuntimeState => !decide (p.1 = t) := by
    funext p
    simp [decide_not]
  rw [← hfun]
  exact tlsGet_filter_ne l t t' h

/-- Behaviour of one `Kotlin_initRuntimeIfNeeded` call (allocation
succeeding) on a runtime-less thread while the status is Uninitialized:
it wins the compare-and-set. -/
theorem ensure_from_uninit (t : Nat) (w : World)
    (hg : w.globalRuntimeStatus = .kUninitialized)
    (hv : tlsGet w.runtimeStates t = none) :
    (Kotlin_initRuntimeIfNeeded true t w).outcome = .ok ∧
      (Kotlin_initRuntimeIfNeeded true t w).firstRuntime = some true ∧
      (Kotlin_initRuntimeIfNeeded true t w).world.globalRuntimeStatus = .kRunning ∧
      (Kotlin_initRuntimeIfNeeded true t w).trace
        = [runPhase w.registry INIT_GLOBALS (InitMemory true),
           runPhase w.registry INIT_THREAD_LOCAL_GLOBALS (InitMemory true)] ∧
      (Kotlin_initRuntimeIfNeeded true t w).world.registry = w.registry ∧
      ∀ t', t' ≠ t →
        tlsGet (Kotlin_initRuntimeIfNeeded true t w).world.runtimeStates t'
          = tlsGet w.runtimeStates t' := by
  refine ⟨?_, ?_, ?_, ?_, ?_, fun t' ht' => ?_⟩
  all_goals
    simp [Kotlin_initRuntimeIfNeeded, initRuntime, isValidRuntime, hv, hg, tlsSet]
  rw [tlsGet_cons_ne t t' _ _ ht']
  exact tlsGet_filter_bne _ t t' ht'

/-- Behaviour of one `Kotlin_initRuntimeIfNeeded` call (allocation
succeeding) on a runtime-less thread while the status is already Running:
the compare-and-set fails, `firstRuntime` is false, no INIT_GLOBALS runs. -/
theorem ensure_from_running (t : Nat) (w : World)
    (hg : w.globalRuntimeStatus = .kRunning)
    (hv : tlsGet w.runtimeStates t = none) :
    (Kotlin_initRuntimeIfNeeded true t w).outcome = .ok ∧
      (Kotlin_initRuntimeIfNeeded true t w).firstRuntime = some false ∧
      (Kotlin_initRuntimeIfNeeded true t w).world.globalRuntimeStatus = .kRunning ∧
      (Kotlin_initRuntimeIfNeeded true t w).trace
        = [runPhase w.registry INIT_THREAD_LOCAL_GLOBALS (InitMemory false)] ∧
      (Kotlin_initRuntimeIfNeeded true t w).world.registry = w.registry ∧
      ∀ t', t' ≠ t →
        tlsGet (Kotlin_initRuntimeIfNeeded true t w).world.runtimeStates t'
          = tlsGet w.runtimeStates t' := by
  refine ⟨?_, ?_, ?_, ?_, ?_, fun t' ht' => ?_⟩
  all_goals
    simp [Kotlin_initRuntimeIfNeeded, initRuntime, isValidRuntime, hv, hg, tlsSet]
  rw [tlsGet_cons_ne t t' _ _ ht']
  exact tlsGet_filter_bne _ t t' ht'

/-- One observation of a call in a `Kotlin_initRuntimeIfNeeded` sequence:
the global status just before, the `firstRuntime` value the call observed,
its outcome, its phase runs, and the global status just after. -/
structure EnsureObs where
  pre : GlobalRuntimeStatus
  firstRuntime : Option Bool
  outcome : Outcome
  trace : List PhaseRun
  post : GlobalRuntimeStatus
deriving DecidableEq, Repr

/-- Run `Kotlin_initRuntimeIfNeeded` (with succeeding allocation) once per
thread, in the order the threads reach the compare-and-set, collecting
per-call observations. -/
def runEnsures (ts : List Nat) (w : World) : List EnsureObs × World :=
  match ts with
  | [] => ([], w)
  | t :: rest =>
    let r := Kotlin_initRuntimeIfNeeded true t w
    let res := runEnsures rest r.world
    (⟨w.globalRuntimeStatus, r.firstRuntime, r.outcome, r.trace,
        r.world.globalRuntimeStatus⟩ :: res.1, res.2)

theorem runEnsures_length (ts : List Nat) (w : World) :
    (runEnsures ts w).1.length = ts.length := by
  induction ts generalizing w with
  | nil => rfl
  | cons t rest ih => simp [runEnsures, ih]

theorem runEnsures_from_running (ts : List Nat) : ∀ w : World,
    w.globalRuntimeStatus = .kRunning →
    (∀ t ∈ ts, tlsGet w.runtimeStates t = none) → ts.Nodup →
    ∀ o ∈ (runEnsures ts w).1,
      o.pre = .kRunning ∧ o.firstRuntime = some false ∧ o.outcome = .ok ∧
        o.post = .kRunning ∧ (o.trace.filter fun pr => pr.phase = INIT_GLOBALS) = [] := by
  induction ts with
  | nil =>
    intro w _ _ _ o ho
    simp [runEnsures] at ho
  | cons t rest ih =>
    intro w hg hfresh hnd o ho
    have hfirst := ensure_from_running t w hg (hfresh t (by simp))
    simp only [runEnsures, List.mem_cons] at ho
    rcases ho with ho | ho
    · subst ho
      refine ⟨hg, hfirst.2.1, hfirst.1, hfirst.2.2.1, ?_⟩
      rw [hfirst.2.2.2.1]
      simp [runPhase, INIT_GLOBALS, INIT_THREAD_LOCAL_GLOBALS]
    · refine ih (Kotlin_initRuntimeIfNeeded true t w).world hfirst.2.2.1 ?_
        (List.Nodup.of_cons hnd) o ho
      intro t' ht'
      have hne : t' ≠ t := by
        intro he
        subst he
        exact (List.nodup_cons.mp hnd).1 ht'
      rw [hfirst.2.2.2.2.2 t' hne]
      exact hfresh t' (List.mem_cons_of_mem _ ht')

/-- C2: for every sequence of `Kotlin_initRuntimeIfNeeded` calls made by N
distinct threads, each initially without a runtime, starting from a world
whose global status is Uninitialized: every call succeeds; exactly one
call observes `firstRuntime = true` and the remaining N-1 observe
`firstRuntime = false`; the global status undergoes the
Uninitialized-to-Running transition in exactly one of the calls regardless
of N; and exactly one INIT_GLOBALS phase runs across the whole sequence. -/
theorem C2_single_transition (ts : List Nat) (w : World)
    (hg : w.globalRuntimeStatus = .kUninitialized)
    (hfresh : ∀ t ∈ ts, tlsGet w.runtimeStates t = none)
    (hnd : ts.Nodup) (hne : ts ≠ []) :
    (∀ o ∈ (runEnsures ts w).1, o.outcome = .ok) ∧
      ((runEnsures ts w).1.filter fun o => o.firstRuntime = some true).length = 1 ∧
      ((runEnsures ts w).1.filter fun o => o.firstRuntime = some false).length
        = ts.length - 1 ∧
      ((runEnsures ts w).1.filter fun o =>
          o.pre = GlobalRuntimeStatus.kUninitialized
            ∧ o.post = GlobalRuntimeStatus.kRunning).length = 1 ∧
      ((runEnsures ts w).1.map fun o =>
          (o.trace.filter fun pr => pr.phase = INIT_GLOBALS).length).sum = 1 := by
  cases ts with
  | nil => exact absurd rfl hne
  | cons t rest =>
    have h0 := ensure_from_uninit t w hg (hfresh t (by simp))
    set r := Kotlin_initRuntimeIfNeeded true t w with hr
    have hfresh' : ∀ t' ∈ rest, tlsGet r.world.runtimeStates t' = none := by
      intro t' ht'
      have hne' : t' ≠ t := fun he => (List.nodup_cons.mp hnd).1 (he ▸ ht')
      rw [h0.2.2.2.2.2 t' hne']
      exact hfresh t' (List.mem_cons_of_mem _ ht')
    have hrest := runEnsures_from_running rest r.world h0.2.2.1 hfresh'
      (List.Nodup.of_cons hnd)
    have hrun : (runEnsures (t :: rest) w).1
        = ⟨w.globalRuntimeStatus, r.firstRuntime, r.outcome, r.trace,
            r.world.globalRuntimeStatus⟩ :: (runEnsures rest r.world).1 := rfl
    rw [hrun]
    refine ⟨?_, ?_, ?_, ?_, ?_⟩
    · intro o ho
      rcases List.mem_cons.mp ho with ho | ho
      · rw [ho]
        exact h0.1
      · exact (hrest o ho).2.2.1
    · have hnil : ((runEnsures rest r.world).1.filter
          fun o => o.firstRuntime = some true) = [] := by
        refine List.filter_eq_nil_iff.mpr fun o ho => ?_
        simp [(hrest o ho).2.1]
      rw [List.filter_cons, if_pos (by simp [h0.2.1]), hnil]
      rfl
    · have hall : ((runEnsures rest r.world).1.filter
          fun o => o.firstRuntime = some false) = (runEnsures rest r.world).1 :=
        List.filter_eq_self.mpr fun o ho => by simp [(hrest o ho).2.1]
      rw [List.filter_cons, if_neg (by simp [h0.2.1]), hall, runEnsures_length]
      simp
    · have hnil : ((runEnsures rest r.world).1.filter fun o =>
          o.pre = GlobalRuntimeStatus.kUninitialized
            ∧ o.post = GlobalRuntimeStatus.kRunning) = [] := by
        refine List.filter_eq_nil_iff.mpr fun o ho => ?_
        simp [(hrest o ho).1]
      rw [List.filter_cons, if_pos (by simp [hg, h0.2.2.1]), hnil]
      rfl
    · rw [List.map_cons, List.sum_cons]
      have hz : (((runEnsures rest r.world).1.map fun o =>
          (o.trace.filter fun pr => pr.phase = INIT_GLOBALS).length)).sum = 0 := by
        refine List.sum_eq_zero fun x hx => ?_
        rcases List.mem_map.mp hx with ⟨o, ho, hxo⟩
        rw [← hxo, (hrest o ho).2.2.2.2]
        rfl
      rw [hz]
      simp [h0.2.2.2.1, runPhase, INIT_GLOBALS, INIT_THREAD_LOCAL_GLOBALS]

/-- Witness for C2: three distinct threads initializing from the fresh world. -/
theorem C2_single_transition_witness :
    (∀ o ∈ (runEnsures [0, 1, 2] (initialWorld Registry.empty false)).1,
        o.outcome = .ok) ∧
      ((runEnsures [0, 1, 2] (initialWorld Registry.empty false)).1.filter
          fun o => o.firstRuntime = some true).length = 1 ∧
      ((runEnsures [0, 1, 2] (initialWorld Registry.empty false)).1.filter
          fun o => o.firstRuntime = some false).length = [0, 1, 2].length - 1 ∧
      ((runEnsures [0, 1, 2] (initialWorld Registry.empty false)).1.filter fun o =>
          o.pre = GlobalRuntimeStatus.kUninitialized
            ∧ o.post = GlobalRuntimeStatus.kRunning).length = 1 ∧
      ((runEnsures [0, 1, 2] (initialWorld Registry.empty false)).1.map fun o =>
          (o.trace.filter fun pr => pr.phase = INIT_GLOBALS).length).sum = 1 :=
  C2_single_transition [0, 1, 2] (initialWorld Registry.empty false)
    (by decide) (by decide) (by decide) (by decide)

/-! ## Facts about TLS maps and teardown, towards C4 and C7 -/

theorem tlsGet_none_iff (l : List (Nat × RuntimeState)) (t : Nat) :
    tlsGet l t = none ↔ t ∉ l.map Prod.fst := by
  induction l with
  | nil => simp [tlsGet]
  | cons p rest ih =>
    simp only [tlsGet, List.map_cons, List.mem_cons]
    by_cases hp : p.1 = t
    · simp [hp]
    · simp only [if_neg hp, ih]
      constructor
      · intro h
        rintro (he | hm)
        · exact hp he.symm
        · exact h hm
      · intro h hm
        exact h (Or.inr hm)

theorem filter_ne_of_none (l : List (Nat × RuntimeState)) (t : Nat)
    (h : tlsGet l t = none) : (l.filter fun p => p.1 ≠ t) = l := by
  refine List.filter_eq_self.mpr fun p hp => ?_
  have hne := (tlsGet_none_iff l t).mp h
  simp only [decide_eq_true_eq]
  intro he
  exact hne (he ▸ List.mem_map_of_mem Prod.fst hp)

theorem filter_ne_cons_self (t : Nat) (s : RuntimeState) (l : List (Nat × RuntimeState)) :
    (((t, s) :: l).filter fun p => p.1 ≠ t) = l.filter fun p => p.1 ≠ t := by
  rw [List.filter_cons]
  rw [if_neg (by simp)]

theorem filter_ne_idem (l : List (Nat × RuntimeState)) (t : Nat) :
    ((l.filter fun p => p.1 ≠ t).filter fun p => p.1 ≠ t) = l.filter fun p => p.1 ≠ t :=
  List.filter_eq_self.mpr fun _ ha => (List.mem_filter.mp ha).2

theorem filter_ne_length (l : List (Nat × RuntimeState)) (t : Nat) (st : RuntimeState)
    (hnd : (l.map Prod.fst).Nodup) (h : tlsGet l t = some st) :
    (l.filter fun p => p.1 ≠ t).length + 1 = l.length := by
  induction l with
  | nil => cases h
  | cons p rest ih =>
    rw [List.filter_cons]
    by_cases hp : p.1 = t
    · rw [if_neg (by simp [hp])]
      have hrest : tlsGet rest t = none := by
        rw [tlsGet_none_iff]
        rw [← hp]
        simp only [List.map_cons] at hnd
        exact (List.nodup_cons.mp hnd).1
      rw [filter_ne_of_none rest t hrest]
      simp
    · rw [if_pos (by simp [hp])]
      simp only [tlsGet, if_neg hp] at h
      have := ih (by simp only [List.map_cons] at hnd; exact (List.nodup_cons.mp hnd).2) h
      simp only [List.length_cons]
      omega

theorem filter_ne_keys_nodup (l : List (Nat × RuntimeState)) (t : Nat)
    (hnd : (l.map Prod.fst).Nodup) :
    ((l.filter fun p => p.1 ≠ t).map Prod.fst).Nodup := by
  have hsub : ((l.filter fun p => p.1 ≠ t).map Prod.fst).Sublist (l.map Prod.fst) :=
    (List.filter_sublist l).map Prod.fst
  exact hnd.sublist hsub

/-- The non-abort path of `deinitRuntime` in full: entry status Running,
state marked Destroying, counter decremented, the DEINIT phases. -/
theorem deinitRuntime_ok_shape (t : Nat) (st : RuntimeState) (d : Bool) (w : World)
    (hrun : st.status = .kRunning) :
    deinitRuntime t st d w
      = ⟨.ok,
          World.mk w.registry
            ((t, { st with status := RuntimeStatus.kDestroying }) ::
              w.runtimeStates.filter fun p => p.1 ≠ t)
            (w.aliveRuntimesCount - 1) w.globalRuntimeStatus w.g_checkLeaks
            w.g_checkLeakedCleaners,
          [runPhase w.registry DEINIT_THREAD_LOCAL_GLOBALS st.memoryState]
            ++ (if d then [runPhase w.registry DEINIT_GLOBALS st.memoryState] else [])⟩ := by
  unfold deinitRuntime
  rw [if_neg (by simp [hrun])]
  rfl

/-- The abort path of `deinitRuntime`: wrong per-thread status. -/
theorem deinitRuntime_abort_shape (t : Nat) (st : RuntimeState) (d : Bool) (w : World)
    (hrun : st.status ≠ .kRunning) :
    deinitRuntime t st d w
      = ⟨.abortAssert "Runtime must be in the running state", w, []⟩ := by
  unfold deinitRuntime
  rw [if_pos (by simp [hrun])]

theorem ensure_valid_noop (allocOk : Bool) (t : Nat) (w : World) (st : RuntimeState)
    (hst : tlsGet w.runtimeStates t = some st) :
    Kotlin_initRuntimeIfNeeded allocOk t w = ⟨.ok, w, [], none, none⟩ := by
  unfold Kotlin_initRuntimeIfNeeded
  rw [if_pos (by simp [isValidRuntime, hst])]

theorem ensure_destroyed_abort (allocOk : Bool) (t : Nat) (w : World)
    (hv : tlsGet w.runtimeStates t = none)
    (hg : w.globalRuntimeStatus = .kDestroyed) :
    Kotlin_initRuntimeIfNeeded allocOk t w = ⟨.abortRuntimeDestroyed, w, [], none, none⟩ := by
  unfold Kotlin_initRuntimeIfNeeded
  rw [if_neg (by simp [isValidRuntime, hv]), if_pos hg]

theorem ensure_allocfail_noop (t : Nat) (w : World)
    (hv : tlsGet w.runtimeStates t = none) (hgd : w.globalRuntimeStatus ≠ .kDestroyed) :
    Kotlin_initRuntimeIfNeeded false t w = ⟨.ok, w, [], none, some none⟩ := by
  unfold Kotlin_initRuntimeIfNeeded
  rw [if_neg (by simp [isValidRuntime, hv]), if_neg hgd]
  simp [initRuntime, hv]

/-- Successful initialization adds exactly one entry (the caller's, with
status Running) and increments the counter by exactly one. -/
theorem ensure_true_shape (t : Nat) (w : World)
    (hv : tlsGet w.runtimeStates t = none) (hgd : w.globalRuntimeStatus ≠ .kDestroyed) :
    ∃ st : RuntimeState,
      (Kotlin_initRuntimeIfNeeded true t w).outcome = .ok ∧
      (Kotlin_initRuntimeIfNeeded true t w).world.runtimeStates
        = (t, st) :: w.runtimeStates ∧
      (Kotlin_initRuntimeIfNeeded true t w).world.aliveRuntimesCount
        = w.aliveRuntimesCount + 1 ∧
      (Kotlin_initRuntimeIfNeeded true t w).world.globalRuntimeStatus = .kRunning ∧
      (Kotlin_initRuntimeIfNeeded true t w).world.registry = w.registry := by
  cases hg : w.globalRuntimeStatus with
  | kDestroyed => exact absurd hg hgd
  | kUninitialized =>
    refine ⟨⟨InitMemory true, WorkerInit true, .kRunning⟩, ?_, ?_, ?_, ?_, ?_⟩
    all_goals simp [Kotlin_initRuntimeIfNeeded, initRuntime, isValidRuntime, hv, hg, tlsSet,
      filter_ne_of_none _ t hv]
    all_goals
      intro a b hab he
      exact ((tlsGet_none_iff _ t).mp hv) (he ▸ List.mem_map_of_mem Prod.fst hab)
  | kRunning =>
    refine ⟨⟨InitMemory false, WorkerInit true, .kRunning⟩, ?_, ?_, ?_, ?_, ?_⟩
    all_goals simp [Kotlin_initRuntimeIfNeeded, initRuntime, isValidRuntime, hv, hg, tlsSet,
      filter_ne_of_none _ t hv]
    all_goals
      intro a b hab he
      exact ((tlsGet_none_iff _ t).mp hv) (he ▸ List.mem_map_of_mem Prod.fst hab)

theorem deinitIfNeeded_shape (t : Nat) (w : World) (st : RuntimeState)
    (hst : tlsGet w.runtimeStates t = some st) (hrun : st.status = .kRunning) :
    Kotlin_deinitRuntimeIfNeeded t w
      = ⟨.ok,
          World.mk w.registry (w.runtimeStates.filter fun p => p.1 ≠ t)
            (w.aliveRuntimesCount - 1) w.globalRuntimeStatus w.g_checkLeaks
            w.g_checkLeakedCleaners,
          [runPhase w.registry DEINIT_THREAD_LOCAL_GLOBALS st.memoryState]⟩ := by
  unfold Kotlin_deinitRuntimeIfNeeded
  rw [hst]
  dsimp only
  rw [deinitRuntime_ok_shape t st false w hrun]
  simp [tlsClear, filter_ne_cons_self, filter_ne_idem]

theorem deinitIfNeeded_abort (t : Nat) (w : World) (st : RuntimeState)
    (hst : tlsGet w.runtimeStates t = some st) (hrun : st.status ≠ .kRunning) :
    Kotlin_deinitRuntimeIfNeeded t w
      = ⟨.abortAssert "Runtime must be in the running state", w, []⟩ := by
  unfold Kotlin_deinitRuntimeIfNeeded
  rw [hst]
  dsimp only
  rw [deinitRuntime_abort_shape t st false w hrun]

theorem threadExit_noop (t : Nat) (w : World) (h : tlsGet w.runtimeStates t = none) :
    Kotlin_deinitRuntimeCallbackAtExit t w = ⟨.ok, w, []⟩ := by
  unfold Kotlin_deinitRuntimeCallbackAtExit
  rw [h]

theorem threadExit_shape (t : Nat) (w : World) (st : RuntimeState)
    (hst : tlsGet w.runtimeStates t = some st) (hrun : st.status = .kRunning) :
    Kotlin_deinitRuntimeCallbackAtExit t w
      = ⟨.ok,
          World.mk w.registry (w.runtimeStates.filter fun p => p.1 ≠ t)
            (w.aliveRuntimesCount - 1) w.globalRuntimeStatus w.g_checkLeaks
            w.g_checkLeakedCleaners,
          [runPhase w.registry DEINIT_THREAD_LOCAL_GLOBALS st.memoryState]⟩ := by
  unfold Kotlin_deinitRuntimeCallbackAtExit
  rw [hst]
  dsimp only
  rw [deinitRuntime_ok_shape t st false w hrun]
  simp [tlsClear, filter_ne_cons_self, filter_ne_idem]

theorem threadExit_abort (t : Nat) (w : World) (st : RuntimeState)
    (hst : tlsGet w.runtimeStates t = some st) (hrun : st.status ≠ .kRunning) :
    Kotlin_deinitRuntimeCallbackAtExit t w
      = ⟨.abortAssert "Runtime must be in the running state", tlsClear w t, []⟩ := by
  unfold Kotlin_deinitRuntimeCallbackAtExit
  rw [hst]
  dsimp only
  rw [deinitRuntime_abort_shape t st false w hrun]

/-- Every execution path of `Kotlin_destroyRuntime`: either an abort with
no phase run (leaving the world unchanged or with the status already set
to Destroyed), or the single successful path: entry contract satisfied,
exactly one other-runtimes-free world, the two DEINIT phases in order and
the terminal Destroyed status. -/
theorem destroy_shape (t : Nat) (w : World) :
    ((Kotlin_destroyRuntime t w).outcome ≠ .ok ∧
        (Kotlin_destroyRuntime t w).trace = [] ∧
        ((Kotlin_destroyRuntime t w).world = w ∨
          (Kotlin_destroyRuntime t w).world
            = { w with globalRuntimeStatus := GlobalRuntimeStatus.kDestroyed })) ∨
      (∃ st : RuntimeState, w.globalRuntimeStatus = .kRunning ∧
        tlsGet w.runtimeStates t = some st ∧ st.status = .kRunning ∧
        w.aliveRuntimesCount = 1 ∧
        Kotlin_destroyRuntime t w
          = ⟨.ok,
              World.mk w.registry (w.runtimeStates.filter fun p => p.1 ≠ t) 0
                GlobalRuntimeStatus.kDestroyed w.g_checkLeaks w.g_checkLeakedCleaners,
              [runPhase w.registry DEINIT_THREAD_LOCAL_GLOBALS st.memoryState,
               runPhase w.registry DEINIT_GLOBALS st.memoryState]⟩) := by
  by_cases hg : w.globalRuntimeStatus = .kRunning
  case neg =>
    left
    have h : Kotlin_destroyRuntime t w
        = ⟨.abortAssert "Kotlin runtime must be running", w, []⟩ := by
      unfold Kotlin_destroyRuntime
      rw [if_pos (by simp [hg])]
    rw [h]
    exact ⟨by simp, rfl, Or.inl rfl⟩
  case pos =>
  cases hst : tlsGet w.runtimeStates t with
  | none =>
    left
    have h : Kotlin_destroyRuntime t w
        = ⟨.abortAssert "Current thread must have Kotlin runtime on it.", w, []⟩ := by
      unfold Kotlin_destroyRuntime
      rw [if_neg (by simp [hg]), hst]
    rw [h]
    exact ⟨by simp, rfl, Or.inl rfl⟩
  | some st =>
    by_cases h1 : w.aliveRuntimesCount - 1 < 0
    · left
      have h : Kotlin_destroyRuntime t w
          = ⟨.abortAssert "Cannot be negative.",
              { w with globalRuntimeStatus := GlobalRuntimeStatus.kDestroyed }, []⟩ := by
        unfold Kotlin_destroyRuntime
        rw [if_neg (by simp [hg]), hst]
        dsimp only
        rw [if_pos h1]
      rw [h]
      exact ⟨by simp, rfl, Or.inr rfl⟩
    · by_cases h2 : w.aliveRuntimesCount - 1 > 0
      · left
        have h : Kotlin_destroyRuntime t w
            = ⟨.abortOtherAlive (w.aliveRuntimesCount - 1),
                { w with globalRuntimeStatus := GlobalRuntimeStatus.kDestroyed }, []⟩ := by
          unfold Kotlin_destroyRuntime
          rw [if_neg (by simp [hg]), hst]
          dsimp only
          rw [if_neg h1, if_pos h2]
        rw [h]
        exact ⟨by simp, rfl, Or.inr rfl⟩
      · have hcnt : w.aliveRuntimesCount = 1 := by omega
        by_cases hrun : st.status = .kRunning
        · right
          refine ⟨st, hg, rfl, hrun, hcnt, ?_⟩
          unfold Kotlin_destroyRuntime
          rw [if_neg (by simp [hg]), hst]
          dsimp only
          rw [if_neg h1, if_neg h2]
          rw [deinitRuntime_ok_shape t st true
            { w with globalRuntimeStatus := GlobalRuntimeStatus.kDestroyed } hrun]
          simp [tlsClear, filter_ne_cons_self, filter_ne_idem, hcnt]
        · left
          have h : Kotlin_destroyRuntime t w
              = ⟨.abortAssert "Runtime must be in the running state",
                  { w with globalRuntimeStatus := GlobalRuntimeStatus.kDestroyed }, []⟩ := by
            unfold Kotlin_destroyRuntime
            rw [if_neg (by simp [hg]), hst]
            dsimp only
            rw [if_neg h1, if_neg h2]
            rw [deinitRuntime_abort_shape t st true
              { w with globalRuntimeStatus := GlobalRuntimeStatus.kDestroyed } hrun]
          rw [h]
          exact ⟨by simp, rfl, Or.inr rfl⟩

theorem zeroOut_shape (t : Nat) (w : World) :
    (Kotlin_zeroOutTLSGlobals t w).outcome = .ok ∧
      (Kotlin_zeroOutTLSGlobals t w).world = w ∧
      ∀ pr ∈ (Kotlin_zeroOutTLSGlobals t w).trace,
        pr.phase = DEINIT_THREAD_LOCAL_GLOBALS := by
  unfold Kotlin_zeroOutTLSGlobals
  cases hst : tlsGet w.runtimeStates t with
  | none => exact ⟨rfl, rfl, by simp⟩
  | some st =>
    dsimp only
    cases hm : st.memoryState with
    | none => exact ⟨rfl, rfl, by simp⟩
    | some m =>
      refine ⟨rfl, rfl, ?_⟩
      intro pr hpr
      simp only [List.mem_singleton] at hpr
      rw [hpr]
      rfl

/-- The counting invariant of C7: thread keys are distinct and the counter
equals the number of threads currently holding a live runtime. -/
def CountInv (w : World) : Prop :=
  (w.runtimeStates.map Prod.fst).Nodup ∧
    w.aliveRuntimesCount = (w.runtimeStates.length : Int)

theorem stepOp_countInv (op : Op) (w : World) (h : CountInv w)
    (hok : (stepOp op w).outcome = .ok) : CountInv (stepOp op w).world := by
  obtain ⟨hnd, hcnt⟩ := h
  cases op with
  | ensure allocOk t =>
    cases hst : tlsGet w.runtimeStates t with
    | some st =>
      have hw : (stepOp (Op.ensure allocOk t) w).world = w := by
        rw [show stepOp (Op.ensure allocOk t) w
          = ⟨(Kotlin_initRuntimeIfNeeded allocOk t w).outcome,
             (Kotlin_initRuntimeIfNeeded allocOk t w).world,
             (Kotlin_initRuntimeIfNeeded allocOk t w).trace⟩ from rfl]
        rw [ensure_valid_noop allocOk t w st hst]
      rw [hw]
      exact ⟨hnd, hcnt⟩
    | none =>
      by_cases hgd : w.globalRuntimeStatus = .kDestroyed
      · exfalso
        have : (stepOp (Op.ensure allocOk t) w).outcome
            = (Kotlin_initRuntimeIfNeeded allocOk t w).outcome := rfl
        rw [this, ensure_destroyed_abort allocOk t w hst hgd] at hok
        cases hok
      · cases allocOk with
        | false =>
          have hw : (stepOp (Op.ensure false t) w).world = w := by
            rw [show (stepOp (Op.ensure false t) w).world
              = (Kotlin_initRuntimeIfNeeded false t w).world from rfl]
            rw [ensure_allocfail_noop t w hst hgd]
          rw [hw]
          exact ⟨hnd, hcnt⟩
        | true =>
          obtain ⟨st, -, hrs, hc, -, -⟩ := ensure_true_shape t w hst hgd
          have hw : (stepOp (Op.ensure true t) w).world
              = (Kotlin_initRuntimeIfNeeded true t w).world := rfl
          rw [hw]
          refine ⟨?_, ?_⟩
          · rw [hrs]
            simp only [List.map_cons, List.nodup_cons]
            exact ⟨fun hm => (tlsGet_none_iff _ t).mp hst hm, hnd⟩
          · rw [hrs, hc, hcnt]
            simp [List.length_cons]
  | deinitIfNeeded t =>
    cases hst : tlsGet w.runtimeStates t with
    | none =>
      rw [show stepOp (Op.deinitIfNeeded t) w = Kotlin_deinitRuntimeIfNeeded t w from rfl,
        deinitIfNeeded_noop t w hst]
      exact ⟨hnd, hcnt⟩
    | some st =>
      by_cases hrun : st.status = .kRunning
      · rw [show stepOp (Op.deinitIfNeeded t) w = Kotlin_deinitRuntimeIfNeeded t w from rfl,
          deinitIfNeeded_shape t w st hst hrun]
        refine ⟨filter_ne_keys_nodup _ t hnd, ?_⟩
        have hlen := filter_ne_length w.runtimeStates t st hnd hst
        simp only []
        omega
      · exfalso
        rw [show (stepOp (Op.deinitIfNeeded t) w).outcome
            = (Kotlin_deinitRuntimeIfNeeded t w).outcome from rfl,
          deinitIfNeeded_abort t w st hst hrun] at hok
        cases hok
  | destroy t =>
    rcases destroy_shape t w with ⟨hne, -, -⟩ | ⟨st, -, hst, -, hone, heq⟩
    · exact absurd hok hne
    · rw [show stepOp (Op.destroy t) w = Kotlin_destroyRuntime t w from rfl, heq]
      refine ⟨filter_ne_keys_nodup _ t hnd, ?_⟩
      have hlen := filter_ne_length w.runtimeStates t st hnd hst
      simp only []
      omega
  | zeroOutTLS t =>
    obtain ⟨-, hw, -⟩ := zeroOut_shape t w
    rw [show (stepOp (Op.zeroOutTLS t) w).world = (Kotlin_zeroOutTLSGlobals t w).world from rfl,
      hw]
    exact ⟨hnd, hcnt⟩
  | threadExit t =>
    cases hst : tlsGet w.runtimeStates t with
    | none =>
      rw [show stepOp (Op.threadExit t) w = Kotlin_deinitRuntimeCallbackAtExit t w from rfl,
        threadExit_noop t w hst]
      exact ⟨hnd, hcnt⟩
    | some st =>
      by_cases hrun : st.status = .kRunning
      · rw [show stepOp (Op.threadExit t) w = Kotlin_deinitRuntimeCallbackAtExit t w from rfl,
          threadExit_shape t w st hst hrun]
        refine ⟨filter_ne_keys_nodup _ t hnd, ?_⟩
        have hlen := filter_ne_length w.runtimeStates t st hnd hst
        simp only []
        omega
      · exfalso
        rw [show (stepOp (Op.threadExit t) w).outcome
            = (Kotlin_deinitRuntimeCallbackAtExit t w).outcome from rfl,
          threadExit_abort t w st hst hrun] at hok
        cases hok

theorem run_aborted (ops : List Op) (o : Outcome) (w : World) :
    run (.aborted o w) ops = (.aborted o w, []) := by
  induction ops with
  | nil => rfl
  | cons op ops ih => simp [run, step, ih]

theorem step_running_fst (w : World) (op : Op) :
    (step (.running w) op).1
      = if (stepOp op w).outcome = .ok then Proc.running (stepOp op w).world
        else Proc.aborted (stepOp op w).outcome (stepOp op w).world := by
  cases hok : (stepOp op w).outcome <;> simp [step, hok]

/-- Any property preserved by every non-aborting step holds in every
reachable non-aborted state. -/
theorem run_running_inv (P : World → Prop)
    (hstep : ∀ op w, P w → (stepOp op w).outcome = .ok → P (stepOp op w).world)
    (ops : List Op) : ∀ w : World, P w →
      ∀ w', (run (.running w) ops).1 = .running w' → P w' := by
  induction ops with
  | nil =>
    intro w hw w' h
    simp only [run] at h
    cases h
    exact hw
  | cons op ops ih =>
    intro w hw w' h
    have h1 : (run (.running w) (op :: ops)).1 = (run (step (.running w) op).1 ops).1 := rfl
    rw [h1, step_running_fst] at h
    by_cases hok : (stepOp op w).outcome = .ok
    · rw [if_pos hok] at h
      exact ih (stepOp op w).world (hstep op w hw hok) w' h
    · rw [if_neg hok, run_aborted] at h
      exact Proc.noConfusion h

/-- C7: `aliveRuntimesCount` is incremented by exactly one on each
successful per-thread initialization (Runtime.cpp 95) and decremented by
exactly one on each per-thread teardown (Runtime.cpp 117), so in every
reachable non-aborted process state it equals the number of threads
currently between a successful init and their teardown (the threads whose
TLS holds a runtime) and is never negative. -/
theorem C7_alive_runtimes_count :
    (∀ (allocOk : Bool) (t : Nat) (w : World),
        (initRuntime allocOk t w).outcome = .ok →
        (initRuntime allocOk t w).returned ≠ none →
        (initRuntime allocOk t w).world.aliveRuntimesCount = w.aliveRuntimesCount + 1) ∧
      (∀ (t : Nat) (st : RuntimeState) (d : Bool) (w : World),
        (deinitRuntime t st d w).outcome = .ok →
        (deinitRuntime t st d w).world.aliveRuntimesCount = w.aliveRuntimesCount - 1) ∧
      ∀ (r : Registry) (dbg : Bool) (ops : List Op) (w : World),
        (run (.running (initialWorld r dbg)) ops).1 = .running w →
        w.aliveRuntimesCount = (w.runtimeStates.length : Int) ∧ 0 ≤ w.aliveRuntimesCount := by
  refine ⟨?_, ?_, ?_⟩
  · intro allocOk t w hok hret
    cases allocOk with
    | false => exact absurd rfl hret
    | true =>
      by_cases hv : isValidRuntime w t
      · rw [initRuntime] at hok
        simp [hv] at hok
      · cases hg : w.globalRuntimeStatus with
        | kUninitialized => simp [initRuntime, hv, hg, tlsSet]
        | kRunning => simp [initRuntime, hv, hg, tlsSet]
        | kDestroyed =>
          rw [initRuntime] at hok
          simp [hv, hg, tlsSet] at hok
  · intro t st d w hok
    by_cases hrun : st.status = .kRunning
    · rw [deinitRuntime_ok_shape t st d w hrun]
    · rw [deinitRuntime_abort_shape t st d w hrun] at hok
      cases hok
  · intro r dbg ops w hrun
    have hinv := run_running_inv CountInv stepOp_countInv ops (initialWorld r dbg)
      ⟨by simp [initialWorld], by simp [initialWorld]⟩ w hrun
    refine ⟨hinv.2, ?_⟩
    rw [hinv.2]
    exact Int.natCast_nonneg _

/-- Witness for C7: a concrete init (+1), a concrete teardown (-1), and a
concrete two-init-one-deinit run whose reachable state has count 1 =
number of runtime-holding threads. -/
theorem C7_alive_runtimes_count_witness :
    (initRuntime true 0 (initialWorld Registry.empty false)).world.aliveRuntimesCount
        = (initialWorld Registry.empty false).aliveRuntimesCount + 1 ∧
      (deinitRuntime 0 ⟨some 1, 1, .kRunning⟩ false oneThreadWorld).world.aliveRuntimesCount
        = oneThreadWorld.aliveRuntimesCount - 1 ∧
      (World.mk Registry.empty [(1, ⟨some 2, 1, .kRunning⟩)] 1 .kRunning
            false false).aliveRuntimesCount
          = ((World.mk Registry.empty [(1, ⟨some 2, 1, .kRunning⟩)] 1 .kRunning
              false false).runtimeStates.length : Int) ∧
        0 ≤ (World.mk Registry.empty [(1, ⟨some 2, 1, .kRunning⟩)] 1 .kRunning
            false false).aliveRuntimesCount :=
  ⟨C7_alive_runtimes_count.1 true 0 (initialWorld Registry.empty false)
      (by decide) (by decide),
    C7_alive_runtimes_count.2.1 0 ⟨some 1, 1, .kRunning⟩ false oneThreadWorld (by decide),
    C7_alive_runtimes_count.2.2 Registry.empty false
      [.ensure true 0, .ensure true 1, .deinitIfNeeded 0]
      (World.mk Registry.empty [(1, ⟨some 2, 1, .kRunning⟩)] 1 .kRunning false false)
      (by decide)⟩

/-! ## Which phases each operation can emit, towards C4 -/

theorem initRuntime_phases (a : Bool) (t : Nat) (w : World) :
    ∀ pr ∈ (initRuntime a t w).trace,
      pr.phase = INIT_GLOBALS ∨ pr.phase = INIT_THREAD_LOCAL_GLOBALS := by
  intro pr hpr
  unfold initRuntime at hpr
  split at hpr
  · simp at hpr
  · split at hpr
    · simp at hpr
    · dsimp only at hpr
      split at hpr
      all_goals try split at hpr
      all_goals try split at hpr
      all_goals try simp at hpr
      all_goals
        first
          | (rcases hpr with h | h
             · rw [h]
               exact Or.inl rfl
             · rw [h]
               exact Or.inr rfl)
          | (rw [hpr]
             exact Or.inr rfl)

theorem ensure_phases (a : Bool) (t : Nat) (w : World) :
    ∀ pr ∈ (Kotlin_initRuntimeIfNeeded a t w).trace,
      pr.phase = INIT_GLOBALS ∨ pr.phase = INIT_THREAD_LOCAL_GLOBALS := by
  intro pr hpr
  unfold Kotlin_initRuntimeIfNeeded at hpr
  split at hpr
  · simp at hpr
  · split at hpr
    · simp at hpr
    · dsimp only at hpr
      cases ho : (initRuntime a t w).outcome
      all_goals
        simp only [ho] at hpr
        exact initRuntime_phases a t w pr hpr

theorem deinitRuntime_false_phases (t : Nat) (st : RuntimeState) (w : World) :
    ∀ pr ∈ (deinitRuntime t st false w).trace,
      pr.phase = DEINIT_THREAD_LOCAL_GLOBALS := by
  intro pr hpr
  by_cases hrun : st.status = .kRunning
  · rw [deinitRuntime_ok_shape t st false w hrun] at hpr
    simp at hpr
    rw [hpr]
    rfl
  · rw [deinitRuntime_abort_shape t st false w hrun] at hpr
    simp at hpr

theorem deinitIfNeeded_phases (t : Nat) (w : World) :
    ∀ pr ∈ (Kotlin_deinitRuntimeIfNeeded t w).trace,
      pr.phase = DEINIT_THREAD_LOCAL_GLOBALS := by
  intro pr hpr
  unfold Kotlin_deinitRuntimeIfNeeded at hpr
  cases hst : tlsGet w.runtimeStates t with
  | none =>
    rw [hst] at hpr
    simp at hpr
  | some st =>
    rw [hst] at hpr
    dsimp only at hpr
    cases ho : (deinitRuntime t st false w).outcome
    all_goals
      simp only [ho] at hpr
      exact deinitRuntime_false_phases t st w pr hpr

theorem threadExit_phases (t : Nat) (w : World) :
    ∀ pr ∈ (Kotlin_deinitRuntimeCallbackAtExit t w).trace,
      pr.phase = DEINIT_THREAD_LOCAL_GLOBALS := by
  intro pr hpr
  unfold Kotlin_deinitRuntimeCallbackAtExit at hpr
  cases hst : tlsGet w.runtimeStates t with
  | none =>
    rw [hst] at hpr
    simp at hpr
  | some st =>
    rw [hst] at hpr
    dsimp only at hpr
    exact deinitRuntime_false_phases t st w pr hpr

/-- Number of DEINIT_GLOBALS phase runs in a trace. -/
def dgCount (tr : List PhaseRun) : Nat :=
  (tr.filter fun pr => pr.phase = DEINIT_GLOBALS).length

theorem dgCount_append (a b : List PhaseRun) :
    dgCount (a ++ b) = dgCount a + dgCount b := by
  simp [dgCount, List.filter_append]

theorem dgCount_eq_zero (tr : List PhaseRun)
    (h : ∀ pr ∈ tr, pr.phase ≠ DEINIT_GLOBALS) : dgCount tr = 0 := by
  unfold dgCount
  rw [List.filter_eq_nil_iff.mpr (by simpa using h)]
  rfl

theorem stepOp_no_dg (op : Op) (w : World) (hnd : ∀ t, op ≠ Op.destroy t) :
    ∀ pr ∈ (stepOp op w).trace, pr.phase ≠ DEINIT_GLOBALS := by
  intro pr hpr
  cases op with
  | ensure a t =>
    rcases ensure_phases a t w pr hpr with h | h
    · rw [h]
      decide
    · rw [h]
      decide
  | deinitIfNeeded t =>
    rw [deinitIfNeeded_phases t w pr hpr]
    decide
  | destroy t => exact absurd rfl (hnd t)
  | zeroOutTLS t =>
    rw [(zeroOut_shape t w).2.2 pr hpr]
    decide
  | threadExit t =>
    rw [threadExit_phases t w pr hpr]
    decide

theorem destroy_dg (t : Nat) (w : World) :
    dgCount (Kotlin_destroyRuntime t w).trace ≤ 1 ∧
      (1 ≤ dgCount (Kotlin_destroyRuntime t w).trace →
        w.globalRuntimeStatus = .kRunning ∧
          (Kotlin_destroyRuntime t w).world.globalRuntimeStatus = .kDestroyed) := by
  rcases destroy_shape t w with ⟨-, htr, -⟩ | ⟨st, hg, -, -, -, heq⟩
  · rw [htr]
    exact ⟨by simp [dgCount], fun h => absurd h (by simp [dgCount])⟩
  · rw [heq]
    refine ⟨?_, fun _ => ⟨hg, rfl⟩⟩
    simp [dgCount, runPhase, DEINIT_THREAD_LOCAL_GLOBALS, DEINIT_GLOBALS]

theorem deinitIfNeeded_globalStatus (t : Nat) (w : World) :
    (Kotlin_deinitRuntimeIfNeeded t w).world.globalRuntimeStatus
      = w.globalRuntimeStatus := by
  cases hst : tlsGet w.runtimeStates t with
  | none => rw [deinitIfNeeded_noop t w hst]
  | some st =>
    by_cases hrun : st.status = .kRunning
    · rw [deinitIfNeeded_shape t w st hst hrun]
    · rw [deinitIfNeeded_abort t w st hst hrun]

theorem threadExit_globalStatus (t : Nat) (w : World) :
    (Kotlin_deinitRuntimeCallbackAtExit t w).world.globalRuntimeStatus
      = w.globalRuntimeStatus := by
  cases hst : tlsGet w.runtimeStates t with
  | none => rw [threadExit_noop t w hst]
  | some st =>
    by_cases hrun : st.status = .kRunning
    · rw [threadExit_shape t w st hst hrun]
    · rw [threadExit_abort t w st hst hrun]
      rfl

/-- Once the global status is Destroyed, no non-aborting operation can
leave that status (the terminal state is absorbing). -/
theorem stepOp_destroyed_mono (op : Op) (w : World)
    (hg : w.globalRuntimeStatus = .kDestroyed)
    (hok : (stepOp op w).outcome = .ok) :
    (stepOp op w).world.globalRuntimeStatus = .kDestroyed := by
  cases op with
  | ensure a t =>
    cases hst : tlsGet w.runtimeStates t with
    | some st =>
      rw [show (stepOp (Op.ensure a t) w).world
          = (Kotlin_initRuntimeIfNeeded a t w).world from rfl,
        ensure_valid_noop a t w st hst]
      exact hg
    | none =>
      exfalso
      rw [show (stepOp (Op.ensure a t) w).outcome
          = (Kotlin_initRuntimeIfNeeded a t w).outcome from rfl,
        ensure_destroyed_abort a t w hst hg] at hok
      cases hok
  | deinitIfNeeded t =>
    rw [show (stepOp (Op.deinitIfNeeded t) w).world
        = (Kotlin_deinitRuntimeIfNeeded t w).world from rfl,
      deinitIfNeeded_globalStatus]
    exact hg
  | destroy t =>
    rcases destroy_shape t w with ⟨hne, -, -⟩ | ⟨st, hg', -, -, -, -⟩
    · exact absurd hok hne
    · rw [hg] at hg'
      cases hg'
  | zeroOutTLS t =>
    rw [show (stepOp (Op.zeroOutTLS t) w).world
        = (Kotlin_zeroOutTLSGlobals t w).world from rfl,
      (zeroOut_shape t w).2.1]
    exact hg
  | threadExit t =>
    rw [show (stepOp (Op.threadExit t) w).world
        = (Kotlin_deinitRuntimeCallbackAtExit t w).world from rfl,
      threadExit_globalStatus]
    exact hg

/-- The once-only invariant for DEINIT_GLOBALS over a process history:
at most one DEINIT_GLOBALS phase run so far, and none at all while the
global status has not yet reached Destroyed. -/
def DGInv (p : Proc) (tr : List PhaseRun) : Prop :=
  dgCount tr ≤ 1 ∧
    ∀ w, p = .running w → w.globalRuntimeStatus ≠ .kDestroyed → dgCount tr = 0

theorem step_DGInv (p : Proc) (op : Op) (tr : List PhaseRun) (h : DGInv p tr) :
    DGInv (step p op).1 (tr ++ (step p op).2) := by
  obtain ⟨h1, h2⟩ := h
  cases p with
  | aborted o w =>
    refine ⟨?_, ?_⟩
    · rw [show (step (.aborted o w) op).2 = [] from rfl]
      rw [List.append_nil]
      exact h1
    · intro w' hw'
      rw [show (step (.aborted o w) op).1 = Proc.aborted o w from rfl] at hw'
      exact absurd hw' (by intro hc; cases hc)
  | running w =>
    have htr : (step (.running w) op).2 = (stepOp op w).trace := by
      cases ho : (stepOp op w).outcome <;> simp [step, ho]
    by_cases hop : ∀ t, op ≠ Op.destroy t
    · have hz : dgCount (stepOp op w).trace = 0 :=
        dgCount_eq_zero _ (stepOp_no_dg op w hop)
      refine ⟨?_, ?_⟩
      · rw [htr, dgCount_append, hz]
        omega
      · intro w' hw' hw'd
        rw [htr, dgCount_append, hz]
        rw [step_running_fst] at hw'
        by_cases hok : (stepOp op w).outcome = .ok
        · rw [if_pos hok] at hw'
          cases hw'
          have hpre : w.globalRuntimeStatus ≠ .kDestroyed := by
            intro hd
            exact hw'd (stepOp_destroyed_mono op w hd hok)
          rw [h2 w rfl hpre]
        · rw [if_neg hok] at hw'
          exact absurd hw' (by intro hc; cases hc)
    · push_neg at hop
      obtain ⟨t, ht⟩ := hop
      subst ht
      have hd := destroy_dg t w
      have htr' : (step (.running w) (Op.destroy t)).2
          = (Kotlin_destroyRuntime t w).trace := htr
      refine ⟨?_, ?_⟩
      · rw [htr', dgCount_append]
        by_cases hz : dgCount (Kotlin_destroyRuntime t w).trace = 0
        · omega
        · have hpre := (hd.2 (by omega)).1
          have h0 : dgCount tr = 0 := h2 w rfl (by rw [hpre]; intro hc; cases hc)
          have := hd.1
          omega
      · intro w' hw' hw'd
        rw [step_running_fst] at hw'
        by_cases hok : (stepOp (Op.destroy t) w).outcome = .ok
        · rw [if_pos hok] at hw'
          cases hw'
          rw [htr', dgCount_append]
          by_cases hz : dgCount (Kotlin_destroyRuntime t w).trace = 0
          · have hpre : w.globalRuntimeStatus ≠ .kDestroyed := by
              intro hdd
              exact hw'd (stepOp_destroyed_mono (Op.destroy t) w hdd hok)
            rw [h2 w rfl hpre, hz]
          · exact absurd (hd.2 (by omega)).2 hw'd
        · rw [if_neg hok] at hw'
          exact absurd hw' (by intro hc; cases hc)

theorem run_DGInv (ops : List Op) : ∀ (p : Proc) (tr : List PhaseRun),
    DGInv p tr → DGInv (run p ops).1 (tr ++ (run p ops).2) := by
  induction ops with
  | nil =>
    intro p tr h
    simpa [run] using h
  | cons op ops ih =>
    intro p tr h
    have h1 : (run p (op :: ops)).1 = (run (step p op).1 ops).1 := rfl
    have h2 : tr ++ (run p (op :: ops)).2
        = (tr ++ (step p op).2) ++ (run (step p op).1 ops).2 := by
      rw [show (run p (op :: ops)).2
        = (step p op).2 ++ (run (step p op).1 ops).2 from rfl]
      rw [List.append_assoc]
    rw [h1, h2]
    exact ih (step p op).1 (tr ++ (step p op).2) (step_DGInv p op tr h)

/-- C4: the DEINIT_GLOBALS phase runs only on the explicit destroy path —
`deinitRuntime` invoked with `destroyRuntime = false` (the mode used by
`Kotlin_deinitRuntimeIfNeeded` and by the thread-exit callback) never
emits it, and no operation other than `Kotlin_destroyRuntime` emits it; on
the successful destroy path it runs immediately after that same thread's
DEINIT_THREAD_LOCAL_GLOBALS phase; and over every possible run of the
process from its initial state, DEINIT_GLOBALS runs at most once. -/
theorem C4_deinit_globals_once :
    (∀ (t : Nat) (st : RuntimeState) (w : World),
        ∀ pr ∈ (deinitRuntime t st false w).trace, pr.phase ≠ DEINIT_GLOBALS) ∧
      (∀ (op : Op) (w : World), (∀ t, op ≠ Op.destroy t) →
        ∀ pr ∈ (stepOp op w).trace, pr.phase ≠ DEINIT_GLOBALS) ∧
      (∀ (t : Nat) (w : World) (st : RuntimeState),
        tlsGet w.runtimeStates t = some st →
        (Kotlin_destroyRuntime t w).outcome = .ok →
        (Kotlin_destroyRuntime t w).trace
          = [runPhase w.registry DEINIT_THREAD_LOCAL_GLOBALS st.memoryState,
             runPhase w.registry DEINIT_GLOBALS st.memoryState]) ∧
      ∀ (r : Registry) (dbg : Bool) (ops : List Op),
        dgCount (run (.running (initialWorld r dbg)) ops).2 ≤ 1 := by
  refine ⟨?_, stepOp_no_dg, ?_, ?_⟩
  · intro t st w pr hpr
    rw [deinitRuntime_false_phases t st w pr hpr]
    decide
  · intro t w st hst hok
    rcases destroy_shape t w with ⟨hne, -, -⟩ | ⟨st', -, hst', -, -, heq⟩
    · exact absurd hok hne
    · rw [hst] at hst'
      cases hst'
      rw [heq]
  · intro r dbg ops
    have h := run_DGInv ops (.running (initialWorld r dbg)) []
      ⟨by simp [dgCount], fun w _ _ => by simp [dgCount]⟩
    simpa using h.1

/-- Witness for C4: the four conjuncts at concrete inputs — a concrete
non-destroying teardown phase run, a concrete `Kotlin_zeroOutTLSGlobals`
phase run, the successful concrete destroy, and a concrete run containing
one destroy. -/
theorem C4_deinit_globals_once_witness :
    (runPhase oneThreadWorld.registry DEINIT_THREAD_LOCAL_GLOBALS (some 1)).phase
        ≠ DEINIT_GLOBALS ∧
      (runPhase oneThreadWorld.registry DEINIT_THREAD_LOCAL_GLOBALS (some 1)).phase
        ≠ DEINIT_GLOBALS ∧
      (Kotlin_destroyRuntime 0 oneThreadWorld).trace
        = [runPhase oneThreadWorld.registry DEINIT_THREAD_LOCAL_GLOBALS (some 1),
           runPhase oneThreadWorld.registry DEINIT_GLOBALS (some 1)] ∧
      dgCount (run (.running (initialWorld Registry.empty false))
          [.ensure true 0, .destroy 0, .ensure true 1]).2 ≤ 1 :=
  ⟨C4_deinit_globals_once.1 0 ⟨some 1, 1, .kRunning⟩ oneThreadWorld
      (runPhase oneThreadWorld.registry DEINIT_THREAD_LOCAL_GLOBALS (some 1)) (by decide),
    C4_deinit_globals_once.2.1 (Op.zeroOutTLS 0) oneThreadWorld
      (fun t h => Op.noConfusion h)
      (runPhase oneThreadWorld.registry DEINIT_THREAD_LOCAL_GLOBALS (some 1)) (by decide),
    C4_deinit_globals_once.2.2.1 0 oneThreadWorld ⟨some 1, 1, .kRunning⟩
      (by decide) (by decide),
    C4_deinit_globals_once.2.2.2 Registry.empty false
      [.ensure true 0, .destroy 0, .ensure true 1]⟩
